import Mathlib

/-!
Verification of the ailo-bot pipeline (Norwegian education chatbot).

The Python sources are shallowly embedded here: strings become `List Char`
(one entry per Unicode code point, matching Python's `len`/indexing
semantics), dictionaries become association lists in insertion order, and
the stateful/async operations (`chat`, `_make_request`) become pure
functions over explicit state plus an oracle describing the transport
outcome.  Where a loop is not structurally recursive the embedding uses a
fuel argument that provably dominates the iteration count, so that every
definition evaluates inside the kernel.
-/

namespace AiloBot

/-- Convert a Lean string literal to the `List Char` representation used
throughout the development. -/
def str (s : String) : List Char := s.data

/-! ## Python string primitives -/

/-- Python whitespace characters recognised by `str.strip()` / `str.split()`. -/
def isPyWs (c : Char) : Bool :=
  c = ' ' || c = '\t' || c = '\n' || c = '\x0d' || c = '\x0b' || c = '\x0c'

/-- Python `str.lower()` restricted to the characters appearing in this
code base (ASCII plus the Norwegian letters Æ, Ø, Å). -/
def pyLowerChar (c : Char) : Char :=
  if 'A' ≤ c ∧ c ≤ 'Z' then Char.ofNat (c.toNat + 32)
  else if c = 'Æ' then 'æ'
  else if c = 'Ø' then 'ø'
  else if c = 'Å' then 'å'
  else c

/-- Python `str.upper()` restricted likewise. -/
def pyUpperChar (c : Char) : Char :=
  if 'a' ≤ c ∧ c ≤ 'z' then Char.ofNat (c.toNat - 32)
  else if c = 'æ' then 'Æ'
  else if c = 'ø' then 'Ø'
  else if c = 'å' then 'Å'
  else c

/-- Letters, for Python's `str.title()` word boundaries (ASCII plus æøå). -/
def isPyAlpha (c : Char) : Bool :=
  ('a' ≤ c && c ≤ 'z') || ('A' ≤ c && c ≤ 'Z') ||
  c = 'æ' || c = 'ø' || c = 'å' || c = 'Æ' || c = 'Ø' || c = 'Å'

def toLowerStr (l : List Char) : List Char := l.map pyLowerChar

/-- Python `str.strip()` with no argument: drop leading and trailing
whitespace. -/
def pyStrip (l : List Char) : List Char :=
  ((l.dropWhile isPyWs).reverse.dropWhile isPyWs).reverse

/-- Python `s.strip(chars)` for a single strip character. -/
def pyStripChar (c : Char) (l : List Char) : List Char :=
  ((l.dropWhile (· = c)).reverse.dropWhile (· = c)).reverse

/-- Python's `needle in hay` for strings: contiguous substring test
(the empty needle is in every string). -/
def containsStr : List Char → List Char → Bool
  | [], needle => needle.isEmpty
  | h :: t, needle => List.isPrefixOf needle (h :: t) || containsStr t needle

/-- Python `hay.startswith(needle)`. -/
def startsWithStr (hay needle : List Char) : Bool := List.isPrefixOf needle hay

/-- Fuel-driven worker for `countStr` (non-overlapping occurrences,
scanning left to right, exactly like Python `str.count`). -/
def countStrFuel (needle : List Char) : Nat → List Char → Nat
  | 0, _ => 0
  | _, [] => 0
  | fuel + 1, h :: t =>
    if List.isPrefixOf needle (h :: t) then
      countStrFuel needle fuel ((h :: t).drop needle.length) + 1
    else
      countStrFuel needle fuel t

/-- Python `hay.count(needle)`. -/
def countStr (hay needle : List Char) : Nat :=
  if needle = [] then hay.length + 1 else countStrFuel needle hay.length hay

/-- Split on every character satisfying `p`, keeping empty fields
(Python `str.split(sep)` semantics for a one-character separator). -/
def splitOnPred (p : Char → Bool) : List Char → List (List Char)
  | [] => [[]]
  | c :: t =>
    match splitOnPred p t with
    | [] => if p c then [[], []] else [[c]]
    | w :: ws => if p c then [] :: w :: ws else (c :: w) :: ws

/-- Python `str.split()` with no argument: fields between whitespace runs,
empty fields discarded. -/
def pySplitWs (l : List Char) : List (List Char) :=
  (splitOnPred isPyWs l).filter (· ≠ [])

/-- Python `str.split(sep)` for a one-character separator. -/
def splitOnChar (sep : Char) (l : List Char) : List (List Char) :=
  splitOnPred (· = sep) l

/-- Fuel-driven worker for `splitOnStr`. -/
def splitOnStrFuel (sep : List Char) : Nat → List Char → List (List Char)
  | 0, rest => [rest]
  | _ + 1, [] => [[]]
  | fuel + 1, h :: t =>
    if List.isPrefixOf sep (h :: t) then
      [] :: splitOnStrFuel sep fuel ((h :: t).drop sep.length)
    else
      match splitOnStrFuel sep fuel t with
      | [] => [[h]]
      | w :: ws => (h :: w) :: ws

/-- Python `str.split(sep)` for a multi-character separator (Python
requires `sep` nonempty; callers here always pass nonempty separators). -/
def splitOnStr (sep l : List Char) : List (List Char) :=
  splitOnStrFuel sep l.length l

/-- Fuel-driven worker for `replaceAll`. -/
def replaceAllFuel (needle repl : List Char) : Nat → List Char → List Char
  | 0, rest => rest
  | _ + 1, [] => []
  | fuel + 1, h :: t =>
    if List.isPrefixOf needle (h :: t) then
      repl ++ replaceAllFuel needle repl fuel ((h :: t).drop needle.length)
    else
      h :: replaceAllFuel needle repl fuel t

/-- Python `hay.replace(needle, repl)` for a nonempty needle: replace all
non-overlapping occurrences, scanning left to right. -/
def replaceAll (hay needle repl : List Char) : List Char :=
  replaceAllFuel needle repl hay.length hay

/-- Python `str.title()`: the first cased letter of every alphabetic run is
upper-cased, the rest lower-cased. -/
def pyTitleAux : Bool → List Char → List Char
  | _, [] => []
  | prevAlpha, c :: t =>
    if isPyAlpha c then
      (if prevAlpha then pyLowerChar c else pyUpperChar c) :: pyTitleAux true t
    else
      c :: pyTitleAux false t

def pyTitle (l : List Char) : List Char := pyTitleAux false l

/-- Keep the first occurrence of every element, preserving order
(insertion order of a Python `dict`). -/
def dedupKeepFirst (l : List (List Char)) : List (List Char) :=
  l.foldl (fun acc e => if e ∈ acc then acc else acc ++ [e]) []

/-- Decimal rendering of a natural number, as Python string interpolation
produces for a nonnegative `int`. -/
def natToChars (n : Nat) : List Char := Nat.toDigits 10 n

/-! ## C2 — `URLProcessor.extract_ids_from_data`'s validity filter
(`src/url_processor.py`, `is_valid_id`).

The regex `^(y_|u_|v_|[0-9]+|[a-zA-Z0-9-]+)$` performs a full match of one
of five alternatives: the literal two-character strings `y_`, `u_`, `v_`,
a nonempty digit string, or a nonempty string over `[a-zA-Z0-9-]`. -/

def isAsciiDigit (c : Char) : Bool := '0' ≤ c && c ≤ '9'

def isAlnumHyphen (c : Char) : Bool :=
  ('a' ≤ c && c ≤ 'z') || ('A' ≤ c && c ≤ 'Z') || ('0' ≤ c && c ≤ '9') || c = '-'

/-- Full-match semantics of the regex in `is_valid_id`. -/
def matchesIdPattern (val : List Char) : Bool :=
  val = str ("y_") || val = str ("u_") || val = str ("v_") ||
  (!val.isEmpty && val.all isAsciiDigit) ||
  (!val.isEmpty && val.all isAlnumHyphen)

/-- `is_valid_id` from `extract_ids_from_data`. -/
def is_valid_id (val : List Char) : Bool :=
  if val.isEmpty || val.length > 40 then false
  else if countStr val (str ("_")) > 4 || countStr val (str (".")) > 2 ||
          containsStr val (str (";")) then false
  else matchesIdPattern val

/-- C2: the validity filter accepts `"12345"` and `"a1b2-c3"` and rejects a
50-character string, a string with a semicolon and a string with 5
underscores, as the claim states — but it rejects `"y_sykepleier"`: the
regex alternative `y_` matches only when it is the entire string, so no
`y_`-prefixed id longer than two characters ever passes, contradicting both
the claim and the code's own comment "Typical IDs: numeric, y_*, u_*". -/
theorem C2_is_valid_id_eval :
    is_valid_id (str ("y_sykepleier")) = false ∧
    is_valid_id (str ("12345")) = true ∧
    is_valid_id (str ("a1b2-c3")) = true ∧
    is_valid_id (List.replicate 50 'a') = false ∧
    is_valid_id (str ("ab;cd")) = false ∧
    is_valid_id (str ("a_b_c_d_e_f")) = false ∧
    is_valid_id (str ("y_")) = true ∧
    is_valid_id (str ("u_skole")) = false := by
  decide

/-! ## C1 — `UtdanningAPIDownloader._make_request`
(`src/api_downloader.py`, lines 506-539).

The transport is abstracted as an oracle `outcomes : Nat → AttemptOutcome`
giving, for every attempt index, what `session.get` produced there: an HTTP
200 with a payload of some size, a non-200 status, an `asyncio.TimeoutError`,
or another exception.  The loop body is otherwise a direct transcription:
attempt 0, 1, … up to `retry_attempts - 1`, returning the parsed data on the
first 200, sleeping `2 ** attempt` seconds after every non-returning attempt
except the last. -/

inductive AttemptOutcome
  | ok (dataSize : Nat)
  | httpStatus (code : Nat)
  | timeout
  | exc
  deriving DecidableEq

/-- Outcome of `_make_request`: the returned value (`None` on failure), the
number of attempts actually executed, and the list of backoff delays slept,
in order. -/
structure RequestResult where
  result : Option Nat
  attemptsMade : Nat
  delays : List Nat
  deriving DecidableEq

/-- The `for attempt in range(retry_attempts)` loop, transcribed over the
explicit list of remaining attempt indices. -/
def attemptLoop (outcomes : Nat → AttemptOutcome) (retryAttempts : Nat) :
    List Nat → RequestResult
  | [] => { result := none, attemptsMade := 0, delays := [] }
  | a :: rest =>
    match outcomes a with
    | .ok d => { result := some d, attemptsMade := 1, delays := [] }
    | _ =>
      let r := attemptLoop outcomes retryAttempts rest
      { result := r.result
        attemptsMade := r.attemptsMade + 1
        delays := if a < retryAttempts - 1 then 2 ^ a :: r.delays else r.delays }

/-- `_make_request` with `retry_attempts = retryAttempts` (default 3). -/
def makeRequest (retryAttempts : Nat) (outcomes : Nat → AttemptOutcome) :
    RequestResult :=
  attemptLoop outcomes retryAttempts (List.range retryAttempts)

/-- A concrete transport trace for the counterexample: attempt 0 gets an
HTTP 404, attempt 1 gets a 200 with a 5-byte payload. -/
def c1Outcomes : Nat → AttemptOutcome
  | 0 => .httpStatus 404
  | _ => .ok 5

/-! ## C7 — `AILOEvaluationFramework._calculate_score`
(`src/ailo_evaluation_framework.py`, lines 217-265).

All increments are integral, so the Python float score is embedded as a
`Nat`.  The honest branch reads the previous assistant turn
(`conversation_history[-1].content`); that text is passed in as the
`lastTurn` argument. -/

def calculateScore (hasSource hasRelevantContent isHonest containsData : Bool)
    (responseLength keywordsCount : Nat) (lastTurn : List Char) : Nat :=
  let score : Nat :=
    if hasSource then
      40 + (if hasRelevantContent then 20 else 0) + (if containsData then 20 else 0) +
      (if 200 ≤ responseLength ∧ responseLength ≤ 2000 then 10 else 0) +
      (if 3 ≤ keywordsCount then 10 else 0)
    else if isHonest then
      30 + (if 100 ≤ responseLength then 20 else 0) +
      (if containsStr (toLowerStr lastTurn) (str ("omformulere")) then 10 else 0)
    else
      (if hasRelevantContent then 10 else 0) + (if containsData then 10 else 0)
  min score 100

/-! ### Behaviour lemmas for the retry loop -/

/-- If every attempt in the index window fails (non-200, timeout or other
exception alike), the loop runs them all, returns `none`, and sleeps
`2 ^ a` after every attempt `a` except the last of the configured range. -/
theorem attemptLoop_all_fail (outc : Nat → AttemptOutcome) (n : Nat) :
    ∀ len s, (∀ a, s ≤ a → a < s + len → ∀ d, outc a ≠ .ok d) →
      attemptLoop outc n (List.range' s len) =
        { result := none, attemptsMade := len,
          delays := ((List.range' s len).filter (fun a => decide (a < n - 1))).map
            (fun a => 2 ^ a) } := by
  intro len
  induction len with
  | zero => intro s _; rfl
  | succ m ih =>
    intro s h
    rw [List.range'_succ s m 1]
    have hs : ∀ d, outc s ≠ .ok d := fun d => h s le_rfl (by omega) d
    have hrest := ih (s + 1) (fun a ha1 ha2 d => h a (by omega) (by omega) d)
    cases houtc : outc s with
    | ok d => exact absurd houtc (hs d)
    | httpStatus c =>
      simp only [attemptLoop, houtc, hrest, List.filter_cons, List.range'_succ s m 1]
      by_cases hcmp : s < n - 1 <;> simp [hcmp]
    | timeout =>
      simp only [attemptLoop, houtc, hrest, List.filter_cons, List.range'_succ s m 1]
      by_cases hcmp : s < n - 1 <;> simp [hcmp]
    | exc =>
      simp only [attemptLoop, houtc, hrest, List.filter_cons, List.range'_succ s m 1]
      by_cases hcmp : s < n - 1 <;> simp [hcmp]

/-- If attempt `k` is the first to return HTTP 200, the loop stops there
with its payload, having executed `k - s + 1` attempts and slept after each
earlier (failed) attempt. -/
theorem attemptLoop_first_ok (outc : Nat → AttemptOutcome) (n : Nat) :
    ∀ len s k d, s ≤ k → k < s + len →
      (∀ a, s ≤ a → a < k → ∀ e, outc a ≠ .ok e) → outc k = .ok d →
      attemptLoop outc n (List.range' s len) =
        { result := some d, attemptsMade := k - s + 1,
          delays := ((List.range' s (k - s)).filter (fun a => decide (a < n - 1))).map
            (fun a => 2 ^ a) } := by
  intro len
  induction len with
  | zero => intro s k d hsk hk _ _; omega
  | succ m ih =>
    intro s k d hsk hk hfail hok
    rw [List.range'_succ s m 1]
    rcases Nat.eq_or_lt_of_le hsk with heq | hlt
    · subst heq
      simp [attemptLoop, hok, Nat.sub_self]
    · have hs : ∀ e, outc s ≠ .ok e := fun e => hfail s le_rfl hlt e
      have hrest := ih (s + 1) k d (by omega) (by omega)
        (fun a ha1 ha2 e => hfail a (by omega) ha2 e) hok
      have hks : k - s = (k - (s + 1)) + 1 := by omega
      cases houtc : outc s with
      | ok e => exact absurd houtc (hs e)
      | httpStatus c =>
        simp only [attemptLoop, houtc, hrest, hks, List.range'_succ s _ 1,
          List.filter_cons]
        by_cases hcmp : s < n - 1 <;> simp [hcmp]
      | timeout =>
        simp only [attemptLoop, houtc, hrest, hks, List.range'_succ s _ 1,
          List.filter_cons]
        by_cases hcmp : s < n - 1 <;> simp [hcmp]
      | exc =>
        simp only [attemptLoop, houtc, hrest, hks, List.range'_succ s _ 1,
          List.filter_cons]
        by_cases hcmp : s < n - 1 <;> simp [hcmp]

/-- C1 (counterexample): with 3 configured attempts, a transport trace whose
first attempt yields HTTP 404 and whose second yields HTTP 200 makes
`_make_request` succeed on the second attempt after a 2^0-second backoff —
the non-200 response was retried, contrary to the claim that only
timeouts/exceptions trigger retries. -/
theorem C1_counterexample :
    makeRequest 3 c1Outcomes =
      { result := some 5, attemptsMade := 2, delays := [1] } := by
  decide

/-- C1 (amended): in `_make_request` every non-returning attempt — non-200
status, timeout, or other exception alike — is followed by a retry with
exponential backoff `2 ^ attempt`, up to the configured attempt count; the
first HTTP 200 returns its payload, and if no attempt returns 200 the
request fails with `None` after all attempts. -/
theorem C1_amended_thm :
    (∀ n outc, (∀ a, a < n → ∀ d, outc a ≠ AttemptOutcome.ok d) →
      makeRequest n outc =
        { result := none, attemptsMade := n,
          delays := (List.range (n - 1)).map (fun a => 2 ^ a) }) ∧
    (∀ n outc k d, k < n →
      (∀ a, a < k → ∀ e, outc a ≠ AttemptOutcome.ok e) →
      outc k = AttemptOutcome.ok d →
      makeRequest n outc =
        { result := some d, attemptsMade := k + 1,
          delays := (List.range k).map (fun a => 2 ^ a) }) := by
  constructor
  · intro n outc h
    rw [makeRequest, List.range_eq_range' n,
      attemptLoop_all_fail outc n n 0 (fun a _ ha2 d => h a (by omega) d)]
    have hfilt : (List.range' 0 n).filter (fun a => decide (a < n - 1)) =
        List.range (n - 1) := by
      rw [List.range_eq_range']
      rcases n with _ | m
      · rfl
      · rw [show m + 1 = m + 1 from rfl]
        have : List.range' 0 (m + 1) = List.range' 0 m ++ [m] := by
          simpa using List.range'_1_concat 0 m
        rw [this, List.filter_append]
        have h1 : (List.range' 0 m).filter (fun a => decide (a < m + 1 - 1)) =
            List.range' 0 m := by
          apply List.filter_eq_self.mpr
          intro a ha
          have := List.mem_range'_1.mp ha
          simp; omega
        have h2 : [m].filter (fun a => decide (a < m + 1 - 1)) = [] := by simp
        rw [h1, h2, List.append_nil]
        simp
    rw [hfilt]
  · intro n outc k d hk hfail hok
    rw [makeRequest, List.range_eq_range' n,
      attemptLoop_first_ok outc n n 0 k d (by omega) (by omega)
        (fun a _ ha2 e => hfail a ha2 e) hok]
    have hfilt : (List.range' 0 (k - 0)).filter (fun a => decide (a < n - 1)) =
        List.range k := by
      rw [Nat.sub_zero, List.range_eq_range']
      apply List.filter_eq_self.mpr
      intro a ha
      have := List.mem_range'_1.mp ha
      simp; omega
    rw [hfilt]
    simp

/-- C1 witness: the amended theorem applied to the concrete traces
"every attempt times out" and "404 then 200" with 3 configured attempts. -/
theorem C1_amended_witness :
    makeRequest 3 (fun _ => AttemptOutcome.timeout) =
      { result := none, attemptsMade := 3, delays := [1, 2] } ∧
    makeRequest 3 c1Outcomes =
      { result := some 5, attemptsMade := 2, delays := [1] } := by
  constructor
  · have := C1_amended_thm.1 3 (fun _ => AttemptOutcome.timeout)
      (fun a _ d h => AttemptOutcome.noConfusion h)
    rw [this]; decide
  · have := C1_amended_thm.2 3 c1Outcomes 1 5 (by omega)
      (fun a ha e h => by
        interval_cases a
        exact AttemptOutcome.noConfusion h)
      rfl
    rw [this]; decide

/-- C7: `_calculate_score` always returns a value in [0, 100], and the three
scoring branches are mutually exclusive with precedence has_source >
is_honest > neither: with sources at least the 40 base points are awarded
(at most 100 with bonuses), the honest branch yields between 30 and 60, and
the remaining branch at most 20. -/
theorem C7_score_bounds (hasSource rel honest data : Bool)
    (len kw : Nat) (lastTurn : List Char) :
    calculateScore hasSource rel honest data len kw lastTurn ≤ 100 ∧
    (hasSource = true →
      40 ≤ calculateScore hasSource rel honest data len kw lastTurn) ∧
    (hasSource = false → honest = true →
      30 ≤ calculateScore hasSource rel honest data len kw lastTurn ∧
      calculateScore hasSource rel honest data len kw lastTurn ≤ 60) ∧
    (hasSource = false → honest = false →
      calculateScore hasSource rel honest data len kw lastTurn ≤ 20) := by
  cases hasSource <;> cases honest <;>
    simp only [calculateScore, Bool.true_eq_false, Bool.false_eq_true,
      if_true, if_false, Bool.false_eq_true] <;>
    split_ifs <;> simp

/-- C7 witness: the branch facts at concrete inputs. -/
theorem C7_score_bounds_witness :
    40 ≤ calculateScore true true true true 300 5 [] ∧
    (30 ≤ calculateScore false true true true 300 5 [] ∧
      calculateScore false true true true 300 5 [] ≤ 60) ∧
    calculateScore false true false true 300 5 [] ≤ 20 :=
  ⟨(C7_score_bounds true true true true 300 5 []).2.1 rfl,
   (C7_score_bounds false true true true 300 5 []).2.2.1 rfl rfl,
   (C7_score_bounds false true false true 300 5 []).2.2.2 rfl rfl⟩

/-! ## C5 — `TextExtractor._split_text_into_chunks`
(`src/text_extractor.py`, lines 337-361), with the extractor's
configuration `min_text_length = 20`, `max_chunk_size = 1500`,
`chunk_overlap = 200`. -/

def minTextLength : Nat := 20
def maxChunkSize : Nat := 1500
def chunkOverlap : Nat := 200

/-- Worker for Python `text.rfind(' ', start, stop)`: scans the prefix
`text[:stop]` left to right carrying the index and the best (largest)
space position `≥ start` seen so far. -/
def rfindSpaceAux (s : Nat) : Option Nat → Nat → List Char → Option Nat
  | best, _, [] => best
  | best, i, c :: rest =>
    rfindSpaceAux s (if s ≤ i ∧ c = ' ' then some i else best) (i + 1) rest

/-- Python `text.rfind(' ', start, stop)` (with `none` for Python's -1):
the greatest index in `[start, stop)` holding a space. -/
def rfindSpace (t : List Char) (s e : Nat) : Option Nat :=
  rfindSpaceAux s none 0 (t.take e)

/-- Python slice `t[s:e]` for `s ≤ e`. -/
def pySlice (t : List Char) (s e : Nat) : List Char := (t.drop s).take (e - s)

/-- The `end` computed by one iteration of the chunking loop:
`end = min(start + max_chunk_size, len(text))`, moved back to the last
space in the window when that space lies beyond the window's midpoint. -/
def chunkEnd (t : List Char) (start : Nat) : Nat :=
  let e0 := min (start + maxChunkSize) t.length
  if e0 < t.length then
    match rfindSpace t start e0 with
    | some b => if start + maxChunkSize / 2 < b then b else e0
    | none => e0
  else e0

/-- The while-loop of `_split_text_into_chunks`.  `start` strictly
increases every iteration, so `t.length` fuel always suffices; when the
fuel is positive and `start ≥ t.length` the loop exits exactly as the
Python `while` does. -/
def splitChunksAux (t : List Char) : Nat → Nat → List (List Char)
  | 0, _ => []
  | fuel + 1, start =>
    if start < t.length then
      if minTextLength ≤ (pyStrip (pySlice t start (chunkEnd t start))).length then
        pyStrip (pySlice t start (chunkEnd t start)) ::
          splitChunksAux t fuel (max (chunkEnd t start - chunkOverlap) (start + 1))
      else
        splitChunksAux t fuel (max (chunkEnd t start - chunkOverlap) (start + 1))
    else []

/-- `_split_text_into_chunks`. -/
def splitChunks (t : List Char) : List (List Char) :=
  if t.length ≤ maxChunkSize then [t] else splitChunksAux t t.length 0

/-- The claim's round-trip property: every character position of the source
is covered by some produced chunk, i.e. each such chunk occurs contiguously
in the source at an offset whose window contains the position. -/
def Covers (t : List Char) (chunks : List (List Char)) : Prop :=
  ∀ i, i < t.length →
    ∃ c ∈ chunks, ∃ s, c = (t.drop s).take c.length ∧ s ≤ i ∧ i < s + c.length

/-- The counterexample text: 1299 letters, 290 spaces, 10 letters
(length 1599 > 1500). -/
def c5Text : List Char :=
  List.replicate 1299 'a' ++ (List.replicate 290 ' ' ++ List.replicate 10 'b')

/-! ### Helper lemmas -/

theorem dropWhile_all_false {p : Char → Bool} :
    ∀ l : List Char, (∀ c ∈ l, p c = false) → List.dropWhile p l = l
  | [], _ => rfl
  | c :: t, h => by simp [List.dropWhile, h c (by simp)]

theorem pyStrip_of_noWs (l : List Char) (h : ∀ c ∈ l, isPyWs c = false) :
    pyStrip l = l := by
  unfold pyStrip
  rw [dropWhile_all_false l h,
    dropWhile_all_false l.reverse (fun c hc => h c (List.mem_reverse.mp hc)),
    List.reverse_reverse]

theorem rfindSpaceAux_no_space (s : Nat) :
    ∀ l, (∀ c ∈ l, c ≠ ' ') → ∀ best i, rfindSpaceAux s best i l = best := by
  intro l
  induction l with
  | nil => intro _ best i; rfl
  | cons c t ih =>
    intro h best i
    have hc : ¬(s ≤ i ∧ c = ' ') := fun hand => h c (by simp) hand.2
    simp only [rfindSpaceAux, if_neg hc]
    exact ih (fun x hx => h x (by simp [hx])) best (i + 1)

theorem rfindSpace_none (t : List Char) (s e : Nat)
    (h : ∀ c ∈ t, isPyWs c = false) : rfindSpace t s e = none := by
  apply rfindSpaceAux_no_space
  intro c hc hsp
  have := h c ((List.take_subset _ _) hc)
  rw [hsp] at this
  simp [isPyWs] at this

theorem rfindSpaceAux_append (s : Nat) :
    ∀ l l' best i, rfindSpaceAux s best i (l ++ l') =
      rfindSpaceAux s (rfindSpaceAux s best i l) (i + l.length) l' := by
  intro l
  induction l with
  | nil => intro l' best i; simp [rfindSpaceAux]
  | cons c t ih =>
    intro l' best i
    rw [List.cons_append]
    rw [show rfindSpaceAux s best i (c :: (t ++ l')) =
      rfindSpaceAux s (if s ≤ i ∧ c = ' ' then some i else best) (i + 1) (t ++ l')
      from rfl]
    rw [show rfindSpaceAux s best i (c :: t) =
      rfindSpaceAux s (if s ≤ i ∧ c = ' ' then some i else best) (i + 1) t
      from rfl]
    rw [ih, List.length_cons,
      show i + 1 + t.length = i + (t.length + 1) from by omega]

theorem rfindSpaceAux_replicate_space (s : Nat) :
    ∀ m best i, s ≤ i →
      rfindSpaceAux s best i (List.replicate m ' ') =
        if m = 0 then best else some (i + m - 1) := by
  intro m
  induction m with
  | zero => intro best i _; rfl
  | succ k ih =>
    intro best i hi
    rw [List.replicate_succ]
    rw [show rfindSpaceAux s best i (' ' :: List.replicate k ' ') =
      rfindSpaceAux s (if s ≤ i ∧ (' ' : Char) = ' ' then some i else best) (i + 1)
        (List.replicate k ' ') from rfl]
    rw [if_pos (show s ≤ i ∧ (' ' : Char) = ' ' from ⟨hi, rfl⟩)]
    rw [ih (some i) (i + 1) (by omega)]
    rcases k with _ | k'
    · simp
    · rw [if_neg (by omega), if_neg (by omega)]
      congr 1
      omega

/-- With no whitespace in the text there is no space to break at, so the
window end is just `min(start + max_chunk_size, len)`. -/
theorem chunkEnd_of_noWs (t : List Char) (start : Nat)
    (hno : ∀ c ∈ t, isPyWs c = false) :
    chunkEnd t start = min (start + maxChunkSize) t.length := by
  simp only [chunkEnd, rfindSpace_none t start _ hno]
  split_ifs <;> rfl

/-- If some `Covers` family covers position `i`, then the source character
at `i` literally occurs in the concatenation of the chunks. -/
theorem covers_get_join (t : List Char) (chunks : List (List Char))
    (h : Covers t chunks) (i : Nat) (hi : i < t.length) :
    t.getD i ' ' ∈ chunks.flatten := by
  rw [show t.getD i ' ' = t.get ⟨i, hi⟩ by
    simp [List.getD_eq_getElem?_getD, List.getElem?_eq_getElem hi]]
  obtain ⟨c, hc, s, hcs, hsi, his⟩ := h i hi
  obtain ⟨cl, hcl⟩ : ∃ cl, c.length = cl := ⟨c.length, rfl⟩
  rw [hcl] at hcs his
  subst hcs
  have hclen : cl ≤ t.length - s := by
    simp only [List.length_take, List.length_drop] at hcl
    omega
  have hidx : i - s < (List.take cl (List.drop s t)).length := by
    simp only [List.length_take, List.length_drop]
    omega
  have hkey : (List.take cl (List.drop s t)).get ⟨i - s, hidx⟩ = t.get ⟨i, hi⟩ := by
    simp only [List.get_eq_getElem, List.getElem_take, List.getElem_drop]
    simp [show s + (i - s) = i from by omega]
  rw [← hkey]
  exact List.mem_flatten.mpr ⟨_, hc, List.get_mem _ _ _⟩

/-- Coverage invariant of the chunking loop on whitespace-free text: from
any loop state with at least `min_text_length` characters remaining, every
remaining position ends up covered. -/
theorem splitChunksAux_covers (t : List Char)
    (hno : ∀ c ∈ t, isPyWs c = false) :
    ∀ fuel start, t.length - start ≤ fuel → start < t.length →
      minTextLength ≤ t.length - start →
      ∀ i, start ≤ i → i < t.length →
        ∃ c ∈ splitChunksAux t fuel start, ∃ s,
          c = (t.drop s).take c.length ∧ s ≤ i ∧ i < s + c.length := by
  intro fuel
  induction fuel with
  | zero => intro start h1 h2 _ _ _ _; omega
  | succ f ih =>
    intro start hfuel hstart hmin i hi1 hi2
    have hslice : ∀ a b : Nat, ∀ c ∈ pySlice t a b, isPyWs c = false := by
      intro a b c hc
      simp only [pySlice] at hc
      exact hno c ((List.drop_subset _ _) ((List.take_subset _ _) hc))
    have hend : chunkEnd t start = min (start + maxChunkSize) t.length :=
      chunkEnd_of_noWs t start hno
    set e0 := min (start + maxChunkSize) t.length with he0
    have hstripId : pyStrip (pySlice t start e0) = pySlice t start e0 :=
      pyStrip_of_noWs _ (hslice start e0)
    have he0le : e0 ≤ t.length := by omega
    have he0gt : start < e0 := by
      simp only [he0, maxChunkSize]
      omega
    have hchunklen : (pySlice t start e0).length = e0 - start := by
      simp only [pySlice, List.length_take, List.length_drop]
      omega
    simp only [splitChunksAux, hstart, if_true, hend, hstripId, hchunklen]
    by_cases hfull : e0 < t.length
    · -- the window stops short of the end: a full 1500-character chunk
      have he0eq : e0 = start + maxChunkSize := by
        simp only [he0]
        omega
      have hlen20 : minTextLength ≤ e0 - start := by
        simp only [he0eq, minTextLength, maxChunkSize]
        omega
      simp only [hlen20, if_true]
      by_cases hin : i < e0
      · refine ⟨pySlice t start e0, by simp, start, ?_, hi1, ?_⟩
        · rw [hchunklen]
          simp [pySlice]
        · omega
      · -- position beyond the chunk: covered by the recursive call
        have hstart' : max (e0 - chunkOverlap) (start + 1) = start + 1300 := by
          simp only [he0eq, maxChunkSize, chunkOverlap]
          omega
        rw [hstart']
        have hrec := ih (start + 1300) (by omega) (by omega)
          (by simp only [minTextLength, maxChunkSize] at *; omega)
          i (by simp only [he0eq, maxChunkSize] at hin; omega) hi2
        obtain ⟨c, hc, s, hcs, hs1, hs2⟩ := hrec
        exact ⟨c, by simp [hc], s, hcs, hs1, hs2⟩
    · -- the window reaches the end of the text: one final chunk covers the rest
      have he0eq : e0 = t.length := by omega
      have hlen20 : minTextLength ≤ e0 - start := by omega
      simp only [hlen20, if_true]
      refine ⟨pySlice t start e0, by simp, start, ?_, hi1, ?_⟩
      · rw [hchunklen]
        simp [pySlice]
      · omega

/-! ### Concrete evaluation of the loop on the counterexample text -/

theorem c5_len : c5Text.length = 1599 := by
  rw [c5Text]
  simp only [List.length_append, List.length_replicate]

theorem dropWhile_ws_replicate_space (m : Nat) :
    List.dropWhile isPyWs (List.replicate m ' ') = [] := by
  induction m with
  | zero => rfl
  | succ k ih =>
    rw [List.replicate_succ, List.dropWhile_cons,
      if_pos (show isPyWs ' ' = true from rfl)]
    exact ih

theorem dropWhile_ws_space_append (m : Nat) (l : List Char) :
    List.dropWhile isPyWs (List.replicate m ' ' ++ l) = List.dropWhile isPyWs l := by
  induction m with
  | zero => rfl
  | succ k ih =>
    rw [List.replicate_succ, List.cons_append, List.dropWhile_cons,
      if_pos (show isPyWs ' ' = true from rfl)]
    exact ih

/-- Stripping a block of non-whitespace characters padded by spaces on the
right leaves just the block. -/
theorem pyStrip_nonws_append_space (a : Char) (ha : isPyWs a = false)
    (n m : Nat) :
    pyStrip (List.replicate n a ++ List.replicate m ' ') = List.replicate n a := by
  have hrepl : ∀ k, ∀ c ∈ List.replicate k a, isPyWs c = false := by
    intro k c hc
    rw [List.eq_of_mem_replicate hc]
    exact ha
  unfold pyStrip
  cases n with
  | zero =>
    simp only [List.replicate_zero, List.nil_append]
    rw [dropWhile_ws_replicate_space m]
    rfl
  | succ k =>
    rw [List.replicate_succ, List.cons_append, List.dropWhile_cons,
      if_neg (by rw [ha]; exact Bool.false_ne_true)]
    rw [← List.cons_append, ← List.replicate_succ]
    rw [List.reverse_append, List.reverse_replicate, List.reverse_replicate,
      dropWhile_ws_space_append,
      dropWhile_all_false (List.replicate (k + 1) a) (hrepl (k + 1)),
      List.reverse_replicate]

/-- Stripping a block of non-whitespace characters padded by spaces on the
left leaves just the block. -/
theorem pyStrip_space_append_nonws (a : Char) (ha : isPyWs a = false)
    (m n : Nat) :
    pyStrip (List.replicate m ' ' ++ List.replicate n a) = List.replicate n a := by
  have hrepl : ∀ c ∈ List.replicate n a, isPyWs c = false := by
    intro c hc
    rw [List.eq_of_mem_replicate hc]
    exact ha
  unfold pyStrip
  rw [dropWhile_ws_space_append, dropWhile_all_false (List.replicate n a) hrepl,
    List.reverse_replicate, dropWhile_all_false (List.replicate n a) hrepl,
    List.reverse_replicate]

theorem c5_take1500 :
    c5Text.take 1500 = List.replicate 1299 'a' ++ List.replicate 201 ' ' := by
  rw [c5Text, List.take_append_eq_append_take, List.take_replicate,
    List.take_append_eq_append_take, List.take_replicate]
  simp only [List.length_replicate]
  norm_num

theorem c5_rfind : rfindSpace c5Text 0 1500 = some 1499 := by
  rw [rfindSpace, c5_take1500, rfindSpaceAux_append]
  rw [rfindSpaceAux_no_space 0 (List.replicate 1299 'a')
    (fun c hc => by rw [List.eq_of_mem_replicate hc]; decide) none 0]
  rw [rfindSpaceAux_replicate_space 0 201 none (0 + (List.replicate 1299 'a').length)
    (by omega)]
  simp only [List.length_replicate]
  norm_num

/-- Hand-stated unfolding of `chunkEnd`, avoiding any evaluation of the
text during rewriting. -/
theorem chunkEnd_eq (t : List Char) (start e0 : Nat)
    (he : e0 = min (start + maxChunkSize) t.length) :
    chunkEnd t start =
      if e0 < t.length then
        match rfindSpace t start e0 with
        | some b => if start + maxChunkSize / 2 < b then b else e0
        | none => e0
      else e0 := by
  subst he
  rfl

theorem c5_chunkEnd0 : chunkEnd c5Text 0 = 1499 := by
  rw [chunkEnd_eq c5Text 0 1500 (by rw [c5_len]; simp only [maxChunkSize]; omega)]
  rw [c5_len, if_pos (show (1500 : Nat) < 1599 from by omega), c5_rfind]
  simp only [maxChunkSize]
  norm_num

theorem c5_drop_late (start : Nat) (h : 1299 ≤ start) :
    c5Text.drop start =
      List.replicate (1589 - start) ' ' ++ List.replicate (10 - (start - 1589)) 'b' := by
  rw [c5Text, List.drop_append_eq_append_drop, List.drop_append_eq_append_drop]
  rw [List.drop_replicate, List.drop_replicate, List.drop_replicate]
  simp only [List.length_replicate]
  rw [show (1299 : Nat) - start = 0 from by omega, List.replicate_zero, List.nil_append]
  rw [show (290 : Nat) - (start - 1299) = 1589 - start from by omega]
  rw [show (10 : Nat) - (start - 1299 - 290) = 10 - (start - 1589) from by omega]

theorem c5_slice1 :
    pySlice c5Text 0 1499 = List.replicate 1299 'a' ++ List.replicate 200 ' ' := by
  rw [pySlice, List.drop_zero, Nat.sub_zero, c5Text,
    List.take_append_eq_append_take, List.take_replicate,
    List.take_append_eq_append_take, List.take_replicate]
  simp only [List.length_replicate]
  norm_num

/-- Every iteration of the loop started at or after position 1299 of the
counterexample text produces a chunk of at most 10 letters after stripping,
which is below `min_text_length` and therefore discarded. -/
theorem c5_crawl : ∀ fuel start, 1299 ≤ start →
    splitChunksAux c5Text fuel start = [] := by
  intro fuel
  induction fuel with
  | zero => intro start _; rfl
  | succ f ih =>
    intro start hstart
    by_cases hlt : start < c5Text.length
    · have hstart99 : start < 1599 := by rw [c5_len] at hlt; exact hlt
      have hend : chunkEnd c5Text start = 1599 := by
        rw [chunkEnd_eq c5Text start 1599 (by
          rw [c5_len]
          simp only [maxChunkSize]
          omega)]
        rw [c5_len, if_neg (show ¬(1599 : Nat) < 1599 from by omega)]
      have hslice : pySlice c5Text start 1599 =
          List.replicate (1589 - start) ' ' ++
            List.replicate (10 - (start - 1589)) 'b' := by
        rw [pySlice, c5_drop_late start hstart]
        apply List.take_of_length_le
        simp only [List.length_append, List.length_replicate]
        rw [c5_len] at hlt
        omega
      have hstrip : pyStrip (pySlice c5Text start 1599) =
          List.replicate (10 - (start - 1589)) 'b' := by
        rw [hslice]
        exact pyStrip_space_append_nonws 'b' (by decide) _ _
      have hshort : ¬ minTextLength ≤ (pyStrip (pySlice c5Text start 1599)).length := by
        rw [hstrip, List.length_replicate]
        simp only [minTextLength]
        omega
      simp only [splitChunksAux, hlt, if_true, hend, hshort, if_false]
      exact ih _ (by omega)
    · simp [splitChunksAux, hlt]

/-- First iteration on the counterexample text: the loop emits the
1299-letter chunk (the window is cut back to the last space at 1499 and the
trailing 200 spaces are stripped) and continues from position 1299. -/
theorem c5_iter1 (fuel : Nat) :
    splitChunksAux c5Text (fuel + 1) 0 =
      List.replicate 1299 'a' :: splitChunksAux c5Text fuel 1299 := by
  have hlt : (0 : Nat) < c5Text.length := by rw [c5_len]; omega
  have hstrip : pyStrip (pySlice c5Text 0 1499) = List.replicate 1299 'a' := by
    rw [c5_slice1]
    exact pyStrip_nonws_append_space 'a' (by decide) 1299 200
  simp only [splitChunksAux, hlt, if_true, c5_chunkEnd0, hstrip,
    List.length_replicate, minTextLength]
  norm_num [chunkOverlap]

theorem c5_eval : splitChunks c5Text = [List.replicate 1299 'a'] := by
  rw [splitChunks, c5_len]
  rw [if_neg (show ¬(1599 : Nat) ≤ maxChunkSize from by simp only [maxChunkSize]; omega)]
  rw [show (1599 : Nat) = 1598 + 1 from rfl, c5_iter1 1598,
    c5_crawl 1598 1299 le_rfl]

/-- C5 (counterexample): for this 1599-character text the produced chunk
list is a single 1299-character chunk — the 290 spaces are stripped away
and the 10-letter tail is always shorter than `min_text_length` after
stripping, hence dropped — so the character `'b'` at position 1590 of the
source is covered by no chunk, refuting the claimed round-trip coverage. -/
theorem C5_counterexample :
    maxChunkSize < c5Text.length ∧ ¬ Covers c5Text (splitChunks c5Text) := by
  constructor
  · rw [c5_len]
    simp only [maxChunkSize]
    omega
  · intro hcov
    have hi : (1590 : Nat) < c5Text.length := by rw [c5_len]; omega
    have hmem := covers_get_join c5Text (splitChunks c5Text) hcov 1590 hi
    rw [c5_eval] at hmem
    have hb : c5Text.getD 1590 ' ' = 'b' := by
      have hd := c5_drop_late 1590 (by omega)
      have hhead : c5Text.getD 1590 ' ' = (c5Text.drop 1590).headD ' ' := by
        rw [List.getD_eq_getElem?_getD, List.headD_eq_head?_getD,
          List.head?_eq_getElem?, List.getElem?_drop, Nat.add_zero]
      rw [hhead, hd]
      rfl
    rw [hb] at hmem
    simp only [List.flatten_cons, List.flatten_nil, List.append_nil] at hmem
    exact absurd (List.eq_of_mem_replicate hmem) (by decide)

/-- C5 (amended): a text of at most 1500 characters yields exactly one
chunk equal to the input; a longer text containing no whitespace character
yields chunks that cover every character of the source.  (In general
coverage can fail: each chunk is whitespace-stripped and chunks shorter
than 20 characters after stripping are discarded, as the counterexample
shows.) -/
theorem C5_amended_thm :
    (∀ t : List Char, t.length ≤ maxChunkSize → splitChunks t = [t]) ∧
    (∀ t : List Char, maxChunkSize < t.length →
      (∀ c ∈ t, isPyWs c = false) → Covers t (splitChunks t)) := by
  constructor
  · intro t h
    simp [splitChunks, h]
  · intro t hlen hno i hi
    have hne : ¬ t.length ≤ maxChunkSize := by omega
    rw [splitChunks, if_neg hne]
    exact splitChunksAux_covers t hno t.length 0 (by omega) (by omega)
      (by simp only [minTextLength, maxChunkSize] at *; omega) i (by omega) hi

/-- C5 witness: the amended theorem applied to a short text and to a
1501-character whitespace-free text. -/
theorem C5_amended_witness :
    splitChunks (str ("kort tekst")) = [str ("kort tekst")] ∧
    Covers (List.replicate 1501 'a') (splitChunks (List.replicate 1501 'a')) :=
  ⟨C5_amended_thm.1 (str ("kort tekst")) (by decide),
   C5_amended_thm.2 (List.replicate 1501 'a')
     (by rw [List.length_replicate]; simp only [maxChunkSize]; omega)
     (fun c hc => by rw [List.eq_of_mem_replicate hc]; rfl)⟩

/-! ## Chatbot data model and search
(`src/ailo_chatbot.py`).

A knowledge-base document is the dictionary shape produced by the pipeline:
`id`, `title`, `text`, `source_endpoint` strings and a string-valued
metadata dictionary (an association list in insertion order).  The Python
code reads these fields with `.get(…, default)`; the embedding gives the
fields directly. -/

structure Doc where
  id : List Char
  title : List Char
  text : List Char
  source_endpoint : List Char
  metadata : List (List Char × List Char)
  deriving DecidableEq

/-- Stop words removed by `_extract_key_terms`. -/
def stopWords : List (List Char) :=
  [str ("hva"), str ("er"), str ("det"), str ("som"), str ("en"), str ("et"),
   str ("til"), str ("for"), str ("på"), str ("i"), str ("med"),
   str ("av"), str ("om"), str ("å"), str ("kan"), str ("må"), str ("skal"),
   str ("ville"), str ("blir"), str ("har"), str ("hvor"),
   str ("når"), str ("hvordan"), str ("hvem"), str ("hvilken"),
   str ("hvilke"), str ("man"), str ("jeg"), str ("du")]

/-- Short words kept by `_extract_key_terms` despite their length. -/
def keptShortWords : List (List Char) :=
  [str ("lønn"), str ("jobb"), str ("år"), str ("vgs"), str ("ppu")]

/-- `_extract_key_terms`: whitespace-split the (already lowered) query and
keep words longer than 3 characters that are not stop words, plus the short
words above.  The Python result is a `set`; it is embedded as a
first-occurrence-ordered deduplicated list, which is faithful because every
consumer of the set is order-independent (sums and existence checks). -/
def extract_key_terms (query : List Char) : List (List Char) :=
  (pySplitWs query).foldl (fun acc word =>
    if (3 < word.length ∧ word ∉ stopWords) ∨ word ∈ keptShortWords then
      if word ∈ acc then acc else acc ++ [word]
    else acc) []

/-- The question categories of `_identify_question_type`. -/
inductive QType
  | salary | educationPath | jobDuties | comparison
  | definition | location | duration | general
  deriving DecidableEq

def containsAny (q : List Char) (ws : List (List Char)) : Bool :=
  ws.any (fun w => containsStr q w)

/-- `_identify_question_type` on the lowered query. -/
def identify_question_type (query : List Char) : QType :=
  if containsAny query [str ("lønn"), str ("tjener"), str ("koster"), str ("betaler")] then
    .salary
  else if containsAny query [str ("hvordan bli"), str ("hva skal til"),
      str ("hva kreves"), str ("utdanning")] then
    .educationPath
  else if containsAny query [str ("hva gjør"), str ("oppgaver"),
      str ("jobber med"), str ("ansvar")] then
    .jobDuties
  else if containsAny query [str ("forskjell"), str ("kontra"), str ("eller")] then
    .comparison
  else if containsAny query [str ("hva betyr"), str ("hva er"),
      str ("definisjon"), str ("menes med")] then
    .definition
  else if containsAny query [str ("hvor kan"), str ("hvor jobber"),
      str ("hvor studere")] then
    .location
  else if containsAny query [str ("hvor lang"), str ("hvor mange år"),
      str ("studiepoeng")] then
    .duration
  else
    .general

/-- The `type_keywords` table; `general` has no entry in the Python dict,
which the lookup guard `if question_type in type_keywords` turns into an
empty keyword loop, embedded as the empty list. -/
def type_keywords : QType → List (List Char)
  | .salary => [str ("lønn"), str ("salary"), str ("wage"), str ("tjener")]
  | .educationPath => [str ("utdanning"), str ("studie"), str ("bachelor"),
      str ("master"), str ("fagbrev")]
  | .jobDuties => [str ("beskrivelse"), str ("oppgaver"),
      str ("arbeidsoppgaver"), str ("gjør")]
  | .comparison => [str ("sammenligning"), str ("comparison")]
  | .definition => [str ("beskrivelse"), str ("info"), str ("information")]
  | .location => [str ("sted"), str ("hvor"), str ("location"),
      str ("skoler"), str ("studere")]
  | .duration => [str ("år"), str ("studiepoeng"), str ("tid"), str ("duration")]
  | .general => []

/-- `_score_document`.  Every increment is integral (10, ≤5, 8, 2, 5, 2, 1),
so the Python float score is embedded as a `Nat`.  The `full_query`
parameter is unused by the Python body and kept for signature fidelity.
(The dead code after the first `return` at line 434 of the source is
unreachable and not embedded.) -/
def score_document (doc : Doc) (key_terms : List (List Char))
    (_full_query : List Char) (question_type : QType) : Nat :=
  let text := toLowerStr doc.text
  let title := toLowerStr doc.title
  let source := toLowerStr doc.source_endpoint
  let s1 := key_terms.foldl (fun acc term =>
    acc + (if containsStr title term then 10 else 0) +
      (if containsStr text term then min (countStr text term) 5 else 0)) 0
  let s2 := (type_keywords question_type).foldl (fun acc kw =>
    acc + (if containsStr source kw || containsStr title kw then 8 else 0) +
      (if containsStr text kw then 2 else 0)) s1
  let s3 := s2 + (if key_terms.any (fun t => containsStr source t) then 5 else 0)
  s3 + (if 100 < text.length ∧ text.length < 2000 then 2
        else if 2000 ≤ text.length then 1 else 0)

/-- The score `search_knowledge_base` computes for a document: lower the
query, extract key terms, identify the question type, and score. -/
def docScore (doc : Doc) (query : List Char) : Nat :=
  score_document doc (extract_key_terms (toLowerStr query)) (toLowerStr query)
    (identify_question_type (toLowerStr query))

/-- Stable descending insertion by score: the new pair goes after every
pair of greater-or-equal score, exactly the order `list.sort(key=score,
reverse=True)` produces for pairs appended in knowledge-base order. -/
def insertDesc (x : Nat × Doc) : List (Nat × Doc) → List (Nat × Doc)
  | [] => [x]
  | y :: ys => if x.1 ≤ y.1 then y :: insertDesc x ys else x :: y :: ys

def sortDesc (l : List (Nat × Doc)) : List (Nat × Doc) :=
  l.foldl (fun acc x => insertDesc x acc) []

/-- `search_knowledge_base`: collect `(score, doc)` for every document with
positive score in knowledge-base order, sort by score descending (stable),
truncate to `max_results` (defaulting to `max_context_docs`), and return
the documents. -/
def search_knowledge_base (kb : List Doc) (query : List Char)
    (maxResults : Option Nat) (maxContextDocs : Nat) : List Doc :=
  ((sortDesc (kb.filterMap (fun doc =>
    if 0 < docScore doc query then some (docScore doc query, doc) else none))).take
      (maxResults.getD maxContextDocs)).map (fun p => p.2)

/-! ### Sorting lemmas for the search -/

theorem insertDesc_perm (x : Nat × Doc) :
    ∀ l, (insertDesc x l).Perm (x :: l) := by
  intro l
  induction l with
  | nil => exact List.Perm.refl _
  | cons y ys ih =>
    by_cases h : x.1 ≤ y.1
    · simp only [insertDesc, if_pos h]
      exact (ih.cons y).trans (List.Perm.swap x y ys)
    · simp only [insertDesc, if_neg h]
      exact List.Perm.refl _

theorem sortDesc_perm_aux :
    ∀ l acc : List (Nat × Doc),
      (l.foldl (fun acc x => insertDesc x acc) acc).Perm (acc ++ l) := by
  intro l
  induction l with
  | nil => intro acc; simp
  | cons x xs ih =>
    intro acc
    simp only [List.foldl_cons]
    refine (ih (insertDesc x acc)).trans ?_
    refine ((insertDesc_perm x acc).append_right xs).trans ?_
    simp only [List.cons_append]
    exact List.perm_middle.symm

theorem sortDesc_perm (l : List (Nat × Doc)) : (sortDesc l).Perm l := by
  have := sortDesc_perm_aux l []
  simpa [sortDesc] using this

/-- Descending order on scores, as produced by the insertion. -/
def ScoresDesc (l : List (Nat × Doc)) : Prop :=
  l.Pairwise (fun p q => q.1 ≤ p.1)

theorem insertDesc_sorted (x : Nat × Doc) :
    ∀ l, ScoresDesc l → ScoresDesc (insertDesc x l) := by
  intro l
  induction l with
  | nil => intro _; exact List.pairwise_singleton _ x
  | cons y ys ih =>
    intro h
    rcases List.pairwise_cons.mp h with ⟨hy, hys⟩
    by_cases hc : x.1 ≤ y.1
    · simp only [insertDesc, if_pos hc]
      refine List.pairwise_cons.mpr ⟨?_, ih hys⟩
      intro z hz
      rcases List.mem_cons.mp ((insertDesc_perm x ys).mem_iff.mp hz) with h1 | h1
      · rw [h1]; exact hc
      · exact hy z h1
    · simp only [insertDesc, if_neg hc]
      refine List.pairwise_cons.mpr ⟨?_, h⟩
      intro z hz
      rcases List.mem_cons.mp hz with h1 | h1
      · rw [h1]; omega
      · exact le_trans (hy z h1) (by omega)

theorem sortDesc_sorted (l : List (Nat × Doc)) : ScoresDesc (sortDesc l) := by
  rw [sortDesc]
  have hstep : ∀ acc, ScoresDesc acc →
      ScoresDesc (l.foldl (fun acc x => insertDesc x acc) acc) := by
    induction l with
    | nil => intro acc h; exact h
    | cons x xs ih =>
      intro acc h
      exact ih (insertDesc x acc) (insertDesc_sorted x acc h)
  exact hstep [] List.Pairwise.nil

/-- Every pair collected for the sort is a knowledge-base document paired
with its own (positive) score. -/
theorem results_mem_spec (kb : List Doc) (query : List Char) (p : Nat × Doc)
    (hp : p ∈ kb.filterMap (fun doc =>
      if 0 < docScore doc query then some (docScore doc query, doc) else none)) :
    p.1 = docScore p.2 query ∧ 0 < p.1 ∧ p.2 ∈ kb := by
  rcases List.mem_filterMap.mp hp with ⟨d, hd, hfd⟩
  by_cases h : 0 < docScore d query
  · rw [if_pos h] at hfd
    cases hfd
    exact ⟨rfl, h, hd⟩
  · rw [if_neg h] at hfd
    cases hfd

theorem results_length_eq_countP (query : List Char) :
    ∀ kb : List Doc,
      (kb.filterMap (fun doc =>
        if 0 < docScore doc query then some (docScore doc query, doc) else none)).length =
      kb.countP (fun d => decide (0 < docScore d query)) := by
  intro kb
  induction kb with
  | nil => rfl
  | cons d ds ih =>
    by_cases h : 0 < docScore d query
    · simp [List.filterMap_cons, List.countP_cons, if_pos h, h, ih]
    · simp [List.filterMap_cons, List.countP_cons, if_neg h, h, ih]

theorem results_map_snd_eq_filter (query : List Char) :
    ∀ kb : List Doc,
      (kb.filterMap (fun doc =>
        if 0 < docScore doc query then some (docScore doc query, doc) else none)).map
          (fun p => p.2) =
      kb.filter (fun d => decide (0 < docScore d query)) := by
  intro kb
  induction kb with
  | nil => rfl
  | cons d ds ih =>
    by_cases h : 0 < docScore d query
    · simp [List.filterMap_cons, List.filter_cons, if_pos h, h, ih]
    · simp [List.filterMap_cons, List.filter_cons, if_neg h, h, ih]

/-- C8: `search_knowledge_base` returns only documents of strictly positive
score, in descending score order, exactly `min(cap, #positive)` of them;
and when the cap does not bite, the result is a permutation of the
positive-scoring subset of the knowledge base. -/
theorem C8_search_spec (kb : List Doc) (query : List Char)
    (maxResults : Option Nat) (maxContextDocs : Nat) :
    (∀ d ∈ search_knowledge_base kb query maxResults maxContextDocs,
      0 < docScore d query) ∧
    (search_knowledge_base kb query maxResults maxContextDocs).Pairwise
      (fun a b => docScore b query ≤ docScore a query) ∧
    (search_knowledge_base kb query maxResults maxContextDocs).length =
      min (maxResults.getD maxContextDocs)
        (kb.countP (fun d => decide (0 < docScore d query))) ∧
    (kb.countP (fun d => decide (0 < docScore d query)) ≤ maxResults.getD maxContextDocs →
      (search_knowledge_base kb query maxResults maxContextDocs).Perm
        (kb.filter (fun d => decide (0 < docScore d query)))) := by
  have hmemr : ∀ p ∈ sortDesc (kb.filterMap (fun doc =>
      if 0 < docScore doc query then some (docScore doc query, doc) else none)),
      p.1 = docScore p.2 query ∧ 0 < p.1 ∧ p.2 ∈ kb := by
    intro p hp
    exact results_mem_spec kb query p ((sortDesc_perm _).mem_iff.mp hp)
  refine ⟨?_, ?_, ?_, ?_⟩
  · intro d hd
    rw [search_knowledge_base] at hd
    rcases List.mem_map.mp hd with ⟨p, hp, hpd⟩
    have hspec := hmemr p (List.mem_of_mem_take hp)
    rw [← hpd, ← hspec.1]
    exact hspec.2.1
  · rw [search_knowledge_base]
    refine List.pairwise_map.mpr ?_
    have hsorted : ScoresDesc ((sortDesc (kb.filterMap (fun doc =>
        if 0 < docScore doc query then some (docScore doc query, doc) else none))).take
          (maxResults.getD maxContextDocs)) :=
      (sortDesc_sorted _).sublist (List.take_sublist _ _)
    exact hsorted.imp_of_mem (fun {a b} ha hb hab => by
      have ha' := hmemr a (List.mem_of_mem_take ha)
      have hb' := hmemr b (List.mem_of_mem_take hb)
      rw [← ha'.1, ← hb'.1]
      exact hab)
  · rw [search_knowledge_base]
    rw [List.length_map, List.length_take, (sortDesc_perm _).length_eq,
      results_length_eq_countP query kb]
  · intro hcap
    have htake : (sortDesc (kb.filterMap (fun doc =>
        if 0 < docScore doc query then some (docScore doc query, doc) else none))).take
          (maxResults.getD maxContextDocs) =
        sortDesc (kb.filterMap (fun doc =>
          if 0 < docScore doc query then some (docScore doc query, doc) else none)) := by
      apply List.take_of_length_le
      rw [(sortDesc_perm _).length_eq, results_length_eq_countP query kb]
      exact hcap
    rw [search_knowledge_base, htake]
    refine ((sortDesc_perm _).map (fun p => p.2)).trans ?_
    rw [results_map_snd_eq_filter query kb]

/-- A three-document knowledge base with distinct scores (28, 10, 0) for
the query "lønn sykepleier". -/
def c8DocA : Doc :=
  { id := str ("a"), title := str ("sykepleier lønn"), text := []
    source_endpoint := [], metadata := [] }

def c8DocB : Doc :=
  { id := str ("b"), title := str ("sykepleier"), text := []
    source_endpoint := [], metadata := [] }

def c8DocC : Doc :=
  { id := str ("c"), title := [], text := [], source_endpoint := []
    metadata := [] }

set_option maxRecDepth 40000 in
/-- C8 witness: the theorem applied to the concrete three-document
knowledge base, whose positive-scoring subset fits under the cap. -/
theorem C8_search_spec_witness :
    (search_knowledge_base [c8DocA, c8DocB, c8DocC] (str ("lønn sykepleier"))
      none 5).Perm
      ([c8DocA, c8DocB, c8DocC].filter
        (fun d => decide (0 < docScore d (str ("lønn sykepleier"))))) :=
  (C8_search_spec [c8DocA, c8DocB, c8DocC] (str ("lønn sykepleier")) none 5).2.2.2
    (by decide)

/-! ## C9 — `AILOChatbot._construct_url_from_endpoint`
(`src/ailo_chatbot.py`, lines 517-573). -/

def siteBase : List Char := str ("https://utdanning.no")

/-- The branch chain of `_construct_url_from_endpoint` after the
`param/`-stripping step. -/
def construct_url_core (endpoint : List Char) : List Char :=
  if containsStr endpoint (str ("sammenligning")) then
    if containsStr endpoint (str ("/uno/id-")) then
      if 1 < (splitOnStr (str ("/uno/id-")) endpoint).length then
        siteBase ++ str ("/sammenligning/") ++
          (if containsStr ((splitOnStr (str ("/uno/id-")) endpoint).getD 1 [])
              (str ("/")) then
            (splitOnChar '/' ((splitOnStr (str ("/uno/id-")) endpoint).getD 1 [])).getD 0 []
              ++ str ("/") ++
            (splitOnChar '/' ((splitOnStr (str ("/uno/id-")) endpoint).getD 1 [])).getD 1 []
          else (splitOnStr (str ("/uno/id-")) endpoint).getD 1 [])
      else siteBase ++ str ("/sammenligning")
    else siteBase ++ str ("/sammenligning")
  else if containsStr endpoint (str ("yrker")) ||
      containsStr endpoint (str ("yrkesvalg")) then
    if containsStr endpoint (str ("/beskrivelse/")) then
      siteBase ++ str ("/") ++ endpoint
    else siteBase ++ str ("/yrker")
  else if containsStr endpoint (str ("utdanning")) ||
      containsStr endpoint (str ("studievelgeren")) then
    siteBase ++ str ("/utdanning")
  else if containsStr endpoint (str ("finnlarebedrift")) ||
      containsStr endpoint (str ("lærebedrift")) then
    siteBase ++ str ("/nb/finn-larebedrift")
  else if containsStr endpoint (str ("veientilfagbrev")) then
    siteBase ++ str ("/nb/vei-til-fagbrev")
  else if containsStr endpoint (str ("arbeidsmarkedskart")) ||
      containsStr endpoint (str ("jobbkompasset")) then
    siteBase ++ str ("/arbeidsmarked")
  else if containsStr endpoint (str ("regionalkompetanse")) then
    siteBase ++ str ("/regionalkompetanse")
  else if containsStr endpoint (str ("onet")) then
    siteBase ++ str ("/yrker")
  else if containsStr endpoint (str ("search")) || containsStr endpoint (str ("søk")) then
    siteBase ++ str ("/sok")
  else
    siteBase ++ str ("/") ++
      replaceAll (pyStripChar '/' endpoint) (str ("//")) (str ("/"))

/-- The endpoint after the initial `endpoint.replace('param/', '')`. -/
def stripParam (endpoint : List Char) : List Char :=
  replaceAll endpoint (str ("param/")) []

/-- `_construct_url_from_endpoint`. -/
def construct_url_from_endpoint (endpoint : List Char) : List Char :=
  construct_url_core (stripParam endpoint)

theorem startsWith_append_self (b x : List Char) :
    startsWithStr (b ++ x) b = true := by
  rw [startsWithStr, List.isPrefixOf_iff_prefix]
  exact ⟨x, rfl⟩

/-- C9: the endpoint-to-URL mapping is total — for every input string,
including the empty string and strings with no recognized substrings, it
returns (never raises) a URL rooted at `https://utdanning.no` — and each
recognized endpoint family, when no earlier branch of the dispatch chain
fires, yields its fixed path template. -/
theorem C9_construct_url_spec :
    (∀ e : List Char,
      startsWithStr (construct_url_from_endpoint e) siteBase = true) ∧
    (∀ e, containsStr (stripParam e) (str ("sammenligning")) = true →
      startsWithStr (construct_url_from_endpoint e)
        (siteBase ++ str ("/sammenligning")) = true) ∧
    (∀ e, containsStr (stripParam e) (str ("sammenligning")) = false →
      (containsStr (stripParam e) (str ("yrker")) = true ∨
       containsStr (stripParam e) (str ("yrkesvalg")) = true) →
      (construct_url_from_endpoint e = siteBase ++ str ("/yrker") ∨
       (containsStr (stripParam e) (str ("/beskrivelse/")) = true ∧
        construct_url_from_endpoint e = siteBase ++ str ("/") ++ stripParam e))) ∧
    (∀ e, containsStr (stripParam e) (str ("sammenligning")) = false →
      containsStr (stripParam e) (str ("yrker")) = false →
      containsStr (stripParam e) (str ("yrkesvalg")) = false →
      (containsStr (stripParam e) (str ("utdanning")) = true ∨
       containsStr (stripParam e) (str ("studievelgeren")) = true) →
      construct_url_from_endpoint e = siteBase ++ str ("/utdanning")) ∧
    (∀ e, containsStr (stripParam e) (str ("sammenligning")) = false →
      containsStr (stripParam e) (str ("yrker")) = false →
      containsStr (stripParam e) (str ("yrkesvalg")) = false →
      containsStr (stripParam e) (str ("utdanning")) = false →
      containsStr (stripParam e) (str ("studievelgeren")) = false →
      (containsStr (stripParam e) (str ("finnlarebedrift")) = true ∨
       containsStr (stripParam e) (str ("lærebedrift")) = true) →
      construct_url_from_endpoint e = siteBase ++ str ("/nb/finn-larebedrift")) ∧
    (∀ e, containsStr (stripParam e) (str ("sammenligning")) = false →
      containsStr (stripParam e) (str ("yrker")) = false →
      containsStr (stripParam e) (str ("yrkesvalg")) = false →
      containsStr (stripParam e) (str ("utdanning")) = false →
      containsStr (stripParam e) (str ("studievelgeren")) = false →
      containsStr (stripParam e) (str ("finnlarebedrift")) = false →
      containsStr (stripParam e) (str ("lærebedrift")) = false →
      containsStr (stripParam e) (str ("veientilfagbrev")) = true →
      construct_url_from_endpoint e = siteBase ++ str ("/nb/vei-til-fagbrev")) ∧
    (∀ e, containsStr (stripParam e) (str ("sammenligning")) = false →
      containsStr (stripParam e) (str ("yrker")) = false →
      containsStr (stripParam e) (str ("yrkesvalg")) = false →
      containsStr (stripParam e) (str ("utdanning")) = false →
      containsStr (stripParam e) (str ("studievelgeren")) = false →
      containsStr (stripParam e) (str ("finnlarebedrift")) = false →
      containsStr (stripParam e) (str ("lærebedrift")) = false →
      containsStr (stripParam e) (str ("veientilfagbrev")) = false →
      (containsStr (stripParam e) (str ("arbeidsmarkedskart")) = true ∨
       containsStr (stripParam e) (str ("jobbkompasset")) = true) →
      construct_url_from_endpoint e = siteBase ++ str ("/arbeidsmarked")) ∧
    (∀ e, containsStr (stripParam e) (str ("sammenligning")) = false →
      containsStr (stripParam e) (str ("yrker")) = false →
      containsStr (stripParam e) (str ("yrkesvalg")) = false →
      containsStr (stripParam e) (str ("utdanning")) = false →
      containsStr (stripParam e) (str ("studievelgeren")) = false →
      containsStr (stripParam e) (str ("finnlarebedrift")) = false →
      containsStr (stripParam e) (str ("lærebedrift")) = false →
      containsStr (stripParam e) (str ("veientilfagbrev")) = false →
      containsStr (stripParam e) (str ("arbeidsmarkedskart")) = false →
      containsStr (stripParam e) (str ("jobbkompasset")) = false →
      containsStr (stripParam e) (str ("regionalkompetanse")) = true →
      construct_url_from_endpoint e = siteBase ++ str ("/regionalkompetanse")) ∧
    (∀ e, containsStr (stripParam e) (str ("sammenligning")) = false →
      containsStr (stripParam e) (str ("yrker")) = false →
      containsStr (stripParam e) (str ("yrkesvalg")) = false →
      containsStr (stripParam e) (str ("utdanning")) = false →
      containsStr (stripParam e) (str ("studievelgeren")) = false →
      containsStr (stripParam e) (str ("finnlarebedrift")) = false →
      containsStr (stripParam e) (str ("lærebedrift")) = false →
      containsStr (stripParam e) (str ("veientilfagbrev")) = false →
      containsStr (stripParam e) (str ("arbeidsmarkedskart")) = false →
      containsStr (stripParam e) (str ("jobbkompasset")) = false →
      containsStr (stripParam e) (str ("regionalkompetanse")) = false →
      containsStr (stripParam e) (str ("onet")) = true →
      construct_url_from_endpoint e = siteBase ++ str ("/yrker")) ∧
    (∀ e, containsStr (stripParam e) (str ("sammenligning")) = false →
      containsStr (stripParam e) (str ("yrker")) = false →
      containsStr (stripParam e) (str ("yrkesvalg")) = false →
      containsStr (stripParam e) (str ("utdanning")) = false →
      containsStr (stripParam e) (str ("studievelgeren")) = false →
      containsStr (stripParam e) (str ("finnlarebedrift")) = false →
      containsStr (stripParam e) (str ("lærebedrift")) = false →
      containsStr (stripParam e) (str ("veientilfagbrev")) = false →
      containsStr (stripParam e) (str ("arbeidsmarkedskart")) = false →
      containsStr (stripParam e) (str ("jobbkompasset")) = false →
      containsStr (stripParam e) (str ("regionalkompetanse")) = false →
      containsStr (stripParam e) (str ("onet")) = false →
      (containsStr (stripParam e) (str ("search")) = true ∨
       containsStr (stripParam e) (str ("søk")) = true) →
      construct_url_from_endpoint e = siteBase ++ str ("/sok")) := by
  have htotal : ∀ e : List Char,
      startsWithStr (construct_url_core e) siteBase = true := by
    intro e
    rw [construct_url_core]
    split_ifs <;> exact startsWith_append_self siteBase _
  refine ⟨fun e => htotal (stripParam e), ?_, ?_, ?_, ?_, ?_, ?_, ?_, ?_, ?_⟩
  · intro e h
    rw [construct_url_from_endpoint, construct_url_core, if_pos h]
    split_ifs <;> exact startsWith_append_self _ _
  · intro e h1 h2
    rw [construct_url_from_endpoint, construct_url_core, if_neg (by simp [h1])]
    rw [if_pos (by rcases h2 with h | h <;> simp [h])]
    by_cases hb : containsStr (stripParam e) (str ("/beskrivelse/")) = true
    · right
      exact ⟨hb, by rw [if_pos hb]⟩
    · left
      rw [if_neg hb]
  · intro e h1 h2 h3 h4
    rw [construct_url_from_endpoint, construct_url_core, if_neg (by simp [h1]),
      if_neg (by simp [h2, h3]), if_pos (by rcases h4 with h | h <;> simp [h])]
  · intro e h1 h2 h3 h4 h5 h6
    rw [construct_url_from_endpoint, construct_url_core, if_neg (by simp [h1]),
      if_neg (by simp [h2, h3]), if_neg (by simp [h4, h5]),
      if_pos (by rcases h6 with h | h <;> simp [h])]
  · intro e h1 h2 h3 h4 h5 h6 h7 h8
    rw [construct_url_from_endpoint, construct_url_core, if_neg (by simp [h1]),
      if_neg (by simp [h2, h3]), if_neg (by simp [h4, h5]),
      if_neg (by simp [h6, h7]), if_pos (by simp [h8])]
  · intro e h1 h2 h3 h4 h5 h6 h7 h8 h9
    rw [construct_url_from_endpoint, construct_url_core, if_neg (by simp [h1]),
      if_neg (by simp [h2, h3]), if_neg (by simp [h4, h5]),
      if_neg (by simp [h6, h7]), if_neg (by simp [h8]),
      if_pos (by rcases h9 with h | h <;> simp [h])]
  · intro e h1 h2 h3 h4 h5 h6 h7 h8 h9 h10 h11
    rw [construct_url_from_endpoint, construct_url_core, if_neg (by simp [h1]),
      if_neg (by simp [h2, h3]), if_neg (by simp [h4, h5]),
      if_neg (by simp [h6, h7]), if_neg (by simp [h8]),
      if_neg (by simp [h9, h10]), if_pos (by simp [h11])]
  · intro e h1 h2 h3 h4 h5 h6 h7 h8 h9 h10 h11 h12
    rw [construct_url_from_endpoint, construct_url_core, if_neg (by simp [h1]),
      if_neg (by simp [h2, h3]), if_neg (by simp [h4, h5]),
      if_neg (by simp [h6, h7]), if_neg (by simp [h8]),
      if_neg (by simp [h9, h10]), if_neg (by simp [h11]), if_pos (by simp [h12])]
  · intro e h1 h2 h3 h4 h5 h6 h7 h8 h9 h10 h11 h12 h13
    rw [construct_url_from_endpoint, construct_url_core, if_neg (by simp [h1]),
      if_neg (by simp [h2, h3]), if_neg (by simp [h4, h5]),
      if_neg (by simp [h6, h7]), if_neg (by simp [h8]),
      if_neg (by simp [h9, h10]), if_neg (by simp [h11]), if_neg (by simp [h12]),
      if_pos (by rcases h13 with h | h <;> simp [h])]

/-- C9 witness: the mapping evaluated on representative concrete endpoints,
via the theorem. -/
theorem C9_construct_url_witness :
    startsWithStr (construct_url_from_endpoint (str ("noe/helt/ukjent"))) siteBase = true ∧
    startsWithStr (construct_url_from_endpoint []) siteBase = true ∧
    startsWithStr (construct_url_from_endpoint (str ("sammenligning/lonn")))
      (siteBase ++ str ("/sammenligning")) = true ∧
    construct_url_from_endpoint (str ("param/jobbkompasset/karriere")) =
      siteBase ++ str ("/arbeidsmarked") ∧
    construct_url_from_endpoint (str ("veientilfagbrev")) =
      siteBase ++ str ("/nb/vei-til-fagbrev") := by
  refine ⟨C9_construct_url_spec.1 (str ("noe/helt/ukjent")),
    C9_construct_url_spec.1 [],
    C9_construct_url_spec.2.1 (str ("sammenligning/lonn")) (by decide),
    ?_, ?_⟩
  · exact C9_construct_url_spec.2.2.2.2.2.2.1 (str ("param/jobbkompasset/karriere"))
      (by decide) (by decide) (by decide) (by decide) (by decide) (by decide)
      (by decide) (by decide) (Or.inr (by decide))
  · exact C9_construct_url_spec.2.2.2.2.2.1 (str ("veientilfagbrev"))
      (by decide) (by decide) (by decide) (by decide) (by decide) (by decide)
      (by decide) (by decide)

/-! ## The chat operation (`src/ailo_chatbot.py`, lines 442-721).

`chat` is async and talks to the LM Studio server over HTTP; the transport
is abstracted as an `LLMOutcome` oracle describing what the single
`session.post` would produce: a parsed HTTP-200 completion text, a non-200
status with its error body, an `aiohttp.ClientConnectorError`, or any other
exception (which the final generic handler catches).  The system-prompt and
message-array assembly (lines 618-662) only feed the HTTP request and are
not modelled; no claim concerns them. -/

/-- `ConversationMessage` (the timestamp field is wall-clock bookkeeping
and not modelled). -/
structure Msg where
  role : List Char
  content : List Char
  deriving DecidableEq

structure ChatState where
  knowledge_base : List Doc
  conversation_history : List Msg
  max_context_docs : Nat
  deriving DecidableEq

inductive LLMOutcome
  | ok (content : List Char)
  | httpError (status : Nat) (errText : List Char)
  | connectError
  | exception (message : List Char)
  deriving DecidableEq

structure ChatResult where
  reply : List Char
  state : ChatState
  llmCalled : Bool
  deriving DecidableEq

def noInfoSentinel : List Char :=
  str ("Ingen spesifikk informasjon funnet i databasen for dette spørsmålet.")

/-- The metadata URL scan of `_prepare_context`: first key containing
"url" (case-insensitive) whose string value starts with `/` (made absolute)
or with `http` (taken as is); a matching key with neither prefix does not
break the loop. -/
def urlFromMetadata : List (List Char × List Char) → Option (List Char)
  | [] => none
  | (k, v) :: rest =>
    if containsStr (toLowerStr k) (str ("url")) then
      if startsWithStr v (str ("/")) then some (siteBase ++ v)
      else if startsWithStr v (str ("http")) then some v
      else urlFromMetadata rest
    else urlFromMetadata rest

/-- URL selection for one context document: metadata first, then the
endpoint mapping, then the bare site origin. -/
def docUrl (doc : Doc) : List Char :=
  match urlFromMetadata doc.metadata with
  | some u => u
  | none =>
    if doc.source_endpoint.isEmpty then siteBase
    else construct_url_from_endpoint doc.source_endpoint

def contextHeader : List Char :=
  str ("**Relevant informasjon fra utdanning.no (DU MÅ OPPGI DISSE KILDENE I SVARET DITT):**\n")

def contextFooter : List (List Char) :=
  [str ("\n**VIKTIG:** Du MÅ oppgi kilden (URL) for hver påstand du gjør basert på disse dokumentene."),
   str ("For hver kilde, bruk BÅDE web-URL OG API-kilden som er oppgitt."),
   str ("Format: (Kilde: https://api.utdanning.no[URL] - data fra api.utdanning.no/[endpoint])"),
   str ("Eksempel: (Kilde: https://api.utdanning.no/legacy-lopet/sted/13 - data fra api.utdanning.no/legacy-lopet/sted)")]

/-- The four context lines contributed by document number `i` (1-based). -/
def docContextParts (i : Nat) (doc : Doc) : List (List Char) :=
  [str ("\n**Dokument ") ++ natToChars i ++ str (": ") ++ doc.title ++ str ("**"),
   str ("**URL: ") ++ docUrl doc ++ str ("** (OPPGI DENNE KILDEN I SVARET DITT)"),
   str ("**Datakilde:** api.utdanning.no/") ++ doc.source_endpoint,
   str ("\n") ++
     (if 1000 < doc.text.length then doc.text.take 1000 ++ str ("...") else doc.text) ++
     str ("\n")]

/-- `_prepare_context`: search, and either the fixed no-information
sentinel or the header, per-document blocks and footer joined by
newlines. -/
def prepare_context (kb : List Doc) (query : List Char) (maxDocs : Nat) :
    List Char :=
  let docs := search_knowledge_base kb query none maxDocs
  if docs.isEmpty then noInfoSentinel
  else
    List.intercalate (str ("\n"))
      (contextHeader ::
        ((docs.enum.map (fun p => docContextParts (p.1 + 1) p.2)).flatten ++
          contextFooter))

def kbEmptyReply : List Char :=
  str ("Beklager, jeg har ikke tilgang til databasen min ennå. Vennligst kjør data-nedlastingen først: python main.py")

def noInfoReply : List Char :=
  str ("Beklager, jeg finner ikke spesifikk informasjon om dette i databasen min fra utdanning.no. Mitt kunnskapsgrunnlag er begrenset til data fra utdanning.no API. \n\nDu kan prøve å:\n• Omformulere spørsmålet ditt\n• Bruke mer spesifikke nøkkelord (f.eks. yrkesnavn, utdanningsnavn)\n• Besøke https://utdanning.no direkte for mer informasjon\n\nHva annet kan jeg hjelpe deg med innen norsk utdanning og karriere?")

def missingSourcesDisclaimer : List Char :=
  str ("\n\n⚠️ Merk: All informasjon i dette svaret er basert på data fra utdanning.no. Jeg burde ha oppgitt spesifikke kilder for hver påstand.")

def connectErrorReply : List Char :=
  str ("Beklager, jeg kan ikke koble til LM Studio serveren. Sjekk at den kjører på http://localhost:1234")

/-- `chat`. -/
def chat (st : ChatState) (userMessage : List Char) (llm : LLMOutcome) :
    ChatResult :=
  if st.knowledge_base.isEmpty then
    { reply := kbEmptyReply, state := st, llmCalled := false }
  else if prepare_context st.knowledge_base userMessage st.max_context_docs =
      noInfoSentinel then
    { reply := noInfoReply, state := st, llmCalled := false }
  else
    match llm with
    | .ok content =>
      if containsStr (toLowerStr content) (str ("kilde:")) = false ∧
          100 < (prepare_context st.knowledge_base userMessage
            st.max_context_docs).length then
        { reply := content ++ missingSourcesDisclaimer
          state := { st with conversation_history :=
            st.conversation_history ++
              [{ role := str ("user"), content := userMessage },
               { role := str ("assistant"),
                 content := content ++ missingSourcesDisclaimer }] }
          llmCalled := true }
      else
        { reply := content
          state := { st with conversation_history :=
            st.conversation_history ++
              [{ role := str ("user"), content := userMessage },
               { role := str ("assistant"), content := content }] }
          llmCalled := true }
    | .httpError status _ =>
      { reply := str ("Beklager, jeg fikk en feil fra serveren: ") ++ natToChars status
        state := st, llmCalled := true }
    | .connectError => { reply := connectErrorReply, state := st, llmCalled := true }
    | .exception m =>
      { reply := str ("Beklager, det oppstod en feil: ") ++ m
        state := st, llmCalled := true }

/-! ### C4 — the context-empty paths bypass the LLM -/

/-- With every document scoring zero the search collects nothing. -/
theorem search_empty_of_all_zero (kb : List Doc) (query : List Char)
    (maxResults : Option Nat) (maxDocs : Nat)
    (h : ∀ d ∈ kb, docScore d query = 0) :
    search_knowledge_base kb query maxResults maxDocs = [] := by
  rw [search_knowledge_base]
  have hnil : kb.filterMap (fun doc =>
      if 0 < docScore doc query then some (docScore doc query, doc) else none) = [] := by
    rw [List.filterMap_eq_nil_iff]
    intro d hd
    rw [if_neg (by rw [h d hd]; omega)]
  rw [hnil]
  simp [sortDesc]

/-- C4: for every chat call with an empty knowledge base or a query on
which no document scores above zero, the reply is one of the two fixed
Norwegian sentinel messages and no LLM-server request is made. -/
theorem C4_no_llm_on_empty_context (st : ChatState) (msg : List Char)
    (llm : LLMOutcome)
    (h : st.knowledge_base = [] ∨ ∀ d ∈ st.knowledge_base, docScore d msg = 0) :
    ((chat st msg llm).reply = kbEmptyReply ∨
      (chat st msg llm).reply = noInfoReply) ∧
    (chat st msg llm).llmCalled = false := by
  rcases h with h | h
  · unfold chat
    rw [if_pos (by rw [h]; rfl)]
    exact ⟨Or.inl rfl, rfl⟩
  · by_cases hkb : st.knowledge_base.isEmpty
    · unfold chat
      rw [if_pos hkb]
      exact ⟨Or.inl rfl, rfl⟩
    · have hsent : prepare_context st.knowledge_base msg st.max_context_docs =
          noInfoSentinel := by
        rw [prepare_context, search_empty_of_all_zero st.knowledge_base msg none
          st.max_context_docs h]
        rfl
      unfold chat
      rw [if_neg hkb, if_pos hsent]
      exact ⟨Or.inr rfl, rfl⟩

/-- A chat state with no documents loaded. -/
def emptyState : ChatState :=
  { knowledge_base := [], conversation_history := [], max_context_docs := 5 }

/-- A one-document knowledge base whose document is blank, so that every
query scores it zero. -/
def blankDoc : Doc :=
  { id := [], title := [], text := [], source_endpoint := [], metadata := [] }

def blankState : ChatState :=
  { knowledge_base := [blankDoc], conversation_history := [], max_context_docs := 5 }

/-- C4 witness: the theorem applied to the empty knowledge base and to a
knowledge base whose single blank document scores zero on the query. -/
theorem C4_no_llm_witness :
    (((chat emptyState (str ("hei")) LLMOutcome.connectError).reply = kbEmptyReply ∨
      (chat emptyState (str ("hei")) LLMOutcome.connectError).reply = noInfoReply) ∧
      (chat emptyState (str ("hei")) LLMOutcome.connectError).llmCalled = false) ∧
    (((chat blankState (str ("hei")) (LLMOutcome.ok (str ("svar")))).reply =
        kbEmptyReply ∨
      (chat blankState (str ("hei")) (LLMOutcome.ok (str ("svar")))).reply =
        noInfoReply) ∧
      (chat blankState (str ("hei")) (LLMOutcome.ok (str ("svar")))).llmCalled =
        false) :=
  ⟨C4_no_llm_on_empty_context emptyState (str ("hei")) LLMOutcome.connectError
      (Or.inl rfl),
   C4_no_llm_on_empty_context blankState (str ("hei")) (LLMOutcome.ok (str ("svar")))
      (Or.inr (by decide))⟩

/-! ### C3 — the citation-enforcement disclaimer -/

/-- C3: on the HTTP-200 path with an assembled context longer than 100
characters, a completion without "kilde:" (case-insensitive) is returned
with the fixed disclaimer appended, and a completion containing "kilde:"
is returned unchanged. -/
theorem C3_disclaimer (st : ChatState) (msg content : List Char)
    (hkb : st.knowledge_base ≠ [])
    (hctx : 100 < (prepare_context st.knowledge_base msg st.max_context_docs).length) :
    (containsStr (toLowerStr content) (str ("kilde:")) = false →
      (chat st msg (LLMOutcome.ok content)).reply =
        content ++ missingSourcesDisclaimer) ∧
    (containsStr (toLowerStr content) (str ("kilde:")) = true →
      (chat st msg (LLMOutcome.ok content)).reply = content) := by
  have hkb' : st.knowledge_base.isEmpty = false := by
    rw [List.isEmpty_eq_false]
    exact hkb
  have hsent : prepare_context st.knowledge_base msg st.max_context_docs ≠
      noInfoSentinel := by
    intro heq
    rw [heq] at hctx
    have : noInfoSentinel.length = 68 := by decide
    omega
  constructor
  · intro hnok
    unfold chat
    rw [if_neg (by rw [hkb']; decide), if_neg hsent]
    dsimp only
    rw [if_pos ⟨hnok, hctx⟩]
  · intro hok
    unfold chat
    rw [if_neg (by rw [hkb']; decide), if_neg hsent]
    dsimp only
    rw [if_neg (by rw [hok]; intro hand; exact Bool.noConfusion hand.1)]

/-- A small knowledge base on which the query "lønn sykepleier" scores the
document positively, producing a context far longer than 100 characters. -/
def c3Doc : Doc :=
  { id := str ("doc1"), title := str ("Sykepleier")
    text := str ("Sykepleier er et yrke i helsevesenet. Lønnen er god.")
    source_endpoint := str ("sammenligning/lonn"), metadata := [] }

def c3State : ChatState :=
  { knowledge_base := [c3Doc], conversation_history := [], max_context_docs := 5 }

set_option maxRecDepth 40000 in
/-- C3 witness: the theorem applied to the concrete state, once with a
completion lacking citations and once with a completion citing a source. -/
theorem C3_disclaimer_witness :
    (chat c3State (str ("lønn sykepleier"))
      (LLMOutcome.ok (str ("Sykepleiere tjener bra.")))).reply =
        str ("Sykepleiere tjener bra.") ++ missingSourcesDisclaimer ∧
    (chat c3State (str ("lønn sykepleier"))
      (LLMOutcome.ok (str ("Sykepleiere tjener bra (Kilde: https://utdanning.no).")))).reply =
        str ("Sykepleiere tjener bra (Kilde: https://utdanning.no).") :=
  ⟨(C3_disclaimer c3State (str ("lønn sykepleier")) (str ("Sykepleiere tjener bra."))
      (by decide) (by decide)).1 (by decide),
   (C3_disclaimer c3State (str ("lønn sykepleier"))
      (str ("Sykepleiere tjener bra (Kilde: https://utdanning.no)."))
      (by decide) (by decide)).2 (by decide)⟩

/-! ### C10 — conversation-history atomicity -/

/-- C10: `chat` leaves the conversation history exactly unchanged on every
path that does not complete with an HTTP-200 completion — empty knowledge
base, no-information sentinel, non-200 status, connection failure, other
exception — and on the HTTP-200 success path appends exactly the user
message followed by the assistant message (the returned reply), in that
order. -/
theorem C10_history_atomicity (st : ChatState) (msg : List Char)
    (llm : LLMOutcome) :
    (st.knowledge_base = [] →
      (chat st msg llm).state.conversation_history = st.conversation_history) ∧
    (prepare_context st.knowledge_base msg st.max_context_docs = noInfoSentinel →
      (chat st msg llm).state.conversation_history = st.conversation_history) ∧
    (∀ status err, llm = LLMOutcome.httpError status err →
      (chat st msg llm).state.conversation_history = st.conversation_history) ∧
    (llm = LLMOutcome.connectError →
      (chat st msg llm).state.conversation_history = st.conversation_history) ∧
    (∀ m, llm = LLMOutcome.exception m →
      (chat st msg llm).state.conversation_history = st.conversation_history) ∧
    (∀ content, llm = LLMOutcome.ok content → st.knowledge_base ≠ [] →
      prepare_context st.knowledge_base msg st.max_context_docs ≠ noInfoSentinel →
      (chat st msg llm).state.conversation_history =
        st.conversation_history ++
          [{ role := str ("user"), content := msg },
           { role := str ("assistant"), content := (chat st msg llm).reply }]) := by
  by_cases hkb : st.knowledge_base.isEmpty
  · have hchat : chat st msg llm =
        { reply := kbEmptyReply, state := st, llmCalled := false } := by
      unfold chat
      rw [if_pos hkb]
    rw [hchat]
    refine ⟨fun _ => rfl, fun _ => rfl, fun _ _ _ => rfl, fun _ => rfl,
      fun _ _ => rfl, fun content _ hne _ => ?_⟩
    exact absurd (List.isEmpty_iff.mp hkb) hne
  · by_cases hsent : prepare_context st.knowledge_base msg st.max_context_docs =
        noInfoSentinel
    · have hchat : chat st msg llm =
          { reply := noInfoReply, state := st, llmCalled := false } := by
        unfold chat
        rw [if_neg hkb, if_pos hsent]
      rw [hchat]
      exact ⟨fun _ => rfl, fun _ => rfl, fun _ _ _ => rfl, fun _ => rfl,
        fun _ _ => rfl, fun content _ _ hne => absurd hsent hne⟩
    · refine ⟨?_, fun h => absurd h hsent, ?_, ?_, ?_, ?_⟩
      · intro h
        exact absurd (by rw [h]; rfl) hkb
      · intro status err hl
        subst hl
        unfold chat
        rw [if_neg hkb, if_neg hsent]
      · intro hl
        subst hl
        unfold chat
        rw [if_neg hkb, if_neg hsent]
      · intro m hl
        subst hl
        unfold chat
        rw [if_neg hkb, if_neg hsent]
      · intro content hl _ _
        subst hl
        unfold chat
        rw [if_neg hkb, if_neg hsent]
        dsimp only
        by_cases hcond : containsStr (toLowerStr content) (str ("kilde:")) = false ∧
            100 < (prepare_context st.knowledge_base msg st.max_context_docs).length
        · rw [if_pos hcond]
        · rw [if_neg hcond]

set_option maxRecDepth 40000 in
/-- C10 witness: the theorem applied on the concrete state of the C3
witness, on the success path and on a non-200 path. -/
theorem C10_history_atomicity_witness :
    (chat c3State (str ("lønn sykepleier"))
        (LLMOutcome.ok (str ("Svar (kilde: x)")))).state.conversation_history =
      [{ role := str ("user"), content := str ("lønn sykepleier") },
       { role := str ("assistant"),
         content := (chat c3State (str ("lønn sykepleier"))
           (LLMOutcome.ok (str ("Svar (kilde: x)")))).reply }] ∧
    (chat c3State (str ("lønn sykepleier"))
        (LLMOutcome.httpError 500 (str ("boom")))).state.conversation_history = [] := by
  constructor
  · exact (C10_history_atomicity c3State (str ("lønn sykepleier"))
      (LLMOutcome.ok (str ("Svar (kilde: x)")))).2.2.2.2.2
      (str ("Svar (kilde: x)")) rfl (by decide) (by decide)
  · exact (C10_history_atomicity c3State (str ("lønn sykepleier"))
      (LLMOutcome.httpError 500 (str ("boom")))).2.2.1 500 (str ("boom")) rfl

/-! ## C6 — `TextExtractor._create_semantic_documents`
(`src/text_extractor.py`, lines 267-323), with its helpers
`enhance_text_with_context`, `_get_endpoint_context` and
`_translate_field_name`.

A normalized record carries `content`, string-valued `metadata` and
`source_endpoint` (its `id` field is not read by the semantic grouping).
The produced document's `keywords` and `educational_relevance` fields are
not modelled: they are derived via an order-nondeterministic Python `set`
and a float score, and no claim concerns them. -/

structure NRecord where
  content : List Char
  metadata : List (List Char × List Char)
  source_endpoint : List Char
  deriving DecidableEq

structure SemDoc where
  id : Nat
  source_endpoint : List Char
  records_count : Nat
  title : List Char
  text : List Char
  metadata : List (List Char × List Char)
  content_length : Nat
  deriving DecidableEq

def contextSeparator : List Char := str ("\n---\n")

/-- The `endpoint_contexts` table of `_get_endpoint_context`, in insertion
order. -/
def endpointContexts : List (List Char × List Char) :=
  [(str ("arbeidsmarkedskart"), str ("Arbeidsmarkedsdata og statistikk")),
   (str ("finnlarebedrift"), str ("Informasjon om lærebedrifter og læreplasser")),
   (str ("jobbkompasset"), str ("Jobbveiledning og yrkesråd")),
   (str ("karakterkalkulator"), str ("Karakterberegning og poengkalkulator")),
   (str ("kategorisystemer"), str ("Utdannings- og yrkeskategorisering")),
   (str ("linje"), str ("Utdanningsprogrammer og artikler")),
   (str ("sammenligning"), str ("Sammenligning av yrker og utdanninger")),
   (str ("studievelgeren"), str ("Hjelp til valg av studier")),
   (str ("utdanningsdata"), str ("Utdanningsstatistikk og data")),
   (str ("vgs"), str ("Videregående skole informasjon")),
   (str ("yrkearbeidsliv"), str ("Yrkesliv og arbeidsmarked")),
   (str ("ovttas"), str ("Voksenopplæring og kursvirksomhet")),
   (str ("regionalkompetanse"), str ("Regional kompetanse og arbeidsmarked")),
   (str ("veientilfagbrev"), str ("Veier til fagbrev og yrkeskvalifikasjon"))]

/-- `_get_endpoint_context`: first table key occurring in the endpoint wins;
otherwise slashes and underscores become spaces and the result is
title-cased. -/
def get_endpoint_context (endpoint : List Char) : List Char :=
  match endpointContexts.find? (fun p => containsStr endpoint p.1) with
  | some p => p.2
  | none =>
    pyTitle (replaceAll (replaceAll endpoint (str ("/")) (str (" ")))
      (str ("_")) (str (" ")))

/-- The `translations` table of `_translate_field_name`. -/
def fieldTranslations : List (List Char × List Char) :=
  [(str ("id"), str ("ID")),
   (str ("nid"), str ("Node ID")),
   (str ("title"), str ("Tittel")),
   (str ("navn"), str ("Navn")),
   (str ("beskrivelse"), str ("Beskrivelse")),
   (str ("type"), str ("Type")),
   (str ("kategori"), str ("Kategori")),
   (str ("kode"), str ("Kode")),
   (str ("dato"), str ("Dato")),
   (str ("status"), str ("Status")),
   (str ("programomradekode10"), str ("Programområdekode")),
   (str ("yrkeskode_styrk08"), str ("Yrkeskode")),
   (str ("nus_kode"), str ("NUS-kode")),
   (str ("styrk98_kode"), str ("STYRK98-kode")),
   (str ("uno_id"), str ("UNO ID"))]

/-- `_translate_field_name`: lower-case, keep the part after the last dot,
translate via the table or fall back to underscore-to-space title case. -/
def translate_field_name (field : List Char) : List Char :=
  match fieldTranslations.find? (fun p =>
    decide (p.1 = (splitOnChar '.' (toLowerStr field)).getLastD [])) with
  | some p => p.2
  | none =>
    pyTitle (replaceAll ((splitOnChar '.' (toLowerStr field)).getLastD [])
      (str ("_")) (str (" ")))

/-- `enhance_text_with_context`: an optional source line, an optional
metadata line (first 5 entries with truthy, non-blank values), then the
separator and the text; the bare text when there is no context at all. -/
def enhance_text_with_context (text : List Char)
    (metadata : List (List Char × List Char)) (sourceEndpoint : List Char) :
    List Char :=
  let endpointContext := get_endpoint_context sourceEndpoint
  let kilde : List (List Char) :=
    if endpointContext.isEmpty then []
    else [str ("Kilde: ") ++ endpointContext]
  let contextMetadata := metadata.filterMap (fun p =>
    if ¬p.2.isEmpty ∧ ¬(pyStrip p.2).isEmpty then
      some (translate_field_name p.1 ++ str (": ") ++ p.2)
    else none)
  let parts := kilde ++
    (if contextMetadata.isEmpty then []
     else [str ("Metadata: ") ++
       List.intercalate (str ("; ")) (contextMetadata.take 5)])
  if parts.isEmpty then text
  else List.intercalate (str ("\n")) parts ++ contextSeparator ++ text

/-- A record qualifies when its stripped content reaches
`min_text_length`. -/
def qualifiesRecord (r : NRecord) : Bool :=
  decide (minTextLength ≤ (pyStrip r.content).length)

/-- The inner loop over the endpoint's first 10 records: enhanced texts of
the qualifying records, and their metadata merged with the first non-empty
value per key winning. -/
def combineGroup (group : List NRecord) :
    List (List Char) × List (List Char × List Char) :=
  group.foldl (fun acc r =>
    if qualifiesRecord r then
      (acc.1 ++ [enhance_text_with_context r.content r.metadata r.source_endpoint],
       r.metadata.foldl (fun m p =>
         if (m.find? (fun q => decide (q.1 = p.1))).isNone ∧ ¬p.2.isEmpty then
           m ++ [p]
         else m) acc.2)
    else acc) ([], [])

/-- The text join separator `f"\n{context_separator}\n"`. -/
def semanticSep : List Char := str ("\n") ++ contextSeparator ++ str ("\n")

def groupFor (records : List NRecord) (e : List Char) : List NRecord :=
  records.filter (fun r => decide (r.source_endpoint = e))

/-- One step of the per-endpoint loop of `_create_semantic_documents`. -/
def semanticStep (records : List NRecord) (acc : List SemDoc × Nat)
    (e : List Char) : List SemDoc × Nat :=
  if (groupFor records e).length < 2 then acc
  else if (combineGroup ((groupFor records e).take 10)).1.isEmpty then acc
  else
    (acc.1 ++
      [{ id := acc.2
         source_endpoint := e
         records_count := (groupFor records e).length
         title := str ("Samlet informasjon: ") ++ get_endpoint_context e
         text := List.intercalate semanticSep
           (combineGroup ((groupFor records e).take 10)).1
         metadata := (combineGroup ((groupFor records e).take 10)).2
         content_length := (List.intercalate semanticSep
           (combineGroup ((groupFor records e).take 10)).1).length }],
     acc.2 + 1)

/-- `_create_semantic_documents`: group records by source endpoint in
first-seen order and run the per-endpoint loop with a running document
id. -/
def create_semantic_documents (records : List NRecord) (startId : Nat) :
    List SemDoc :=
  ((dedupKeepFirst (records.map (fun r => r.source_endpoint))).foldl
    (semanticStep records) ([], startId)).1

/-- The observable shape a qualifying endpoint contributes: its endpoint,
title, combined text, merged metadata and record count. -/
def semanticShape (records : List NRecord) (e : List Char) :
    Option (List Char × List Char × List Char ×
      List (List Char × List Char) × Nat) :=
  if 2 ≤ (groupFor records e).length ∧
      (combineGroup ((groupFor records e).take 10)).1.isEmpty = false then
    some (e, str ("Samlet informasjon: ") ++ get_endpoint_context e,
      List.intercalate semanticSep (combineGroup ((groupFor records e).take 10)).1,
      (combineGroup ((groupFor records e).take 10)).2,
      (groupFor records e).length)
  else none

theorem length_filterMap_eq_countP_isSome
    {α β : Type} (f : α → Option β) :
    ∀ l : List α, (l.filterMap f).length = l.countP (fun a => (f a).isSome) := by
  intro l
  induction l with
  | nil => rfl
  | cons a t ih =>
    rw [List.filterMap_cons, List.countP_cons]
    cases hfa : f a with
    | none => simpa [hfa] using ih
    | some b => simpa [hfa] using ih

theorem semantic_fold_spec (records : List NRecord) :
    ∀ es : List (List Char), ∀ acc : List SemDoc, ∀ n : Nat,
      ((es.foldl (semanticStep records) (acc, n)).1).map (fun d =>
        (d.source_endpoint, d.title, d.text, d.metadata, d.records_count)) =
      acc.map (fun d =>
        (d.source_endpoint, d.title, d.text, d.metadata, d.records_count)) ++
        es.filterMap (semanticShape records) := by
  intro es
  induction es with
  | nil => intro acc n; simp
  | cons e es ih =>
    intro acc n
    simp only [List.foldl_cons, List.filterMap_cons]
    by_cases h1 : (groupFor records e).length < 2
    · have hstep : semanticStep records (acc, n) e = (acc, n) := by
        rw [semanticStep, if_pos h1]
      have hshape : semanticShape records e = none := by
        rw [semanticShape, if_neg (by intro hand; omega)]
      rw [hstep, hshape, ih acc n]
    · by_cases h2 : (combineGroup ((groupFor records e).take 10)).1.isEmpty
      · have hstep : semanticStep records (acc, n) e = (acc, n) := by
          rw [semanticStep, if_neg h1, if_pos h2]
        have hshape : semanticShape records e = none := by
          rw [semanticShape, if_neg (by
            intro hand
            rw [hand.2] at h2
            exact Bool.noConfusion h2)]
        rw [hstep, hshape, ih acc n]
      · have hstep : semanticStep records (acc, n) e =
            (acc ++
              [{ id := n
                 source_endpoint := e
                 records_count := (groupFor records e).length
                 title := str ("Samlet informasjon: ") ++ get_endpoint_context e
                 text := List.intercalate semanticSep
                   (combineGroup ((groupFor records e).take 10)).1
                 metadata := (combineGroup ((groupFor records e).take 10)).2
                 content_length := (List.intercalate semanticSep
                   (combineGroup ((groupFor records e).take 10)).1).length }],
             n + 1) := by
          rw [semanticStep, if_neg h1, if_neg h2]
        have hshape : semanticShape records e =
            some (e, str ("Samlet informasjon: ") ++ get_endpoint_context e,
              List.intercalate semanticSep
                (combineGroup ((groupFor records e).take 10)).1,
              (combineGroup ((groupFor records e).take 10)).2,
              (groupFor records e).length) := by
          rw [semanticShape, if_pos ⟨by omega, Bool.eq_false_iff.mpr h2⟩]
        rw [hstep, hshape, ih _ (n + 1)]
        simp

/-- C6 (amended): `_create_semantic_documents` produces exactly one
semantic document per source endpoint that has at least 2 records
(qualifying or not) and at least one qualifying record among its first 10;
the document concatenates the enhanced text of the qualifying records among
the endpoint's first 10 and merges their metadata with the first non-empty
value per key winning; all other endpoints produce no document. -/
theorem C6_amended_thm (records : List NRecord) (startId : Nat) :
    ((create_semantic_documents records startId).map (fun d =>
      (d.source_endpoint, d.title, d.text, d.metadata, d.records_count)) =
      (dedupKeepFirst (records.map (fun r => r.source_endpoint))).filterMap
        (semanticShape records)) ∧
    ((create_semantic_documents records startId).length =
      (dedupKeepFirst (records.map (fun r => r.source_endpoint))).countP
        (fun e => (semanticShape records e).isSome)) := by
  constructor
  · rw [create_semantic_documents, semantic_fold_spec records _ [] startId]
    rfl
  · have hmap := semantic_fold_spec records
      (dedupKeepFirst (records.map (fun r => r.source_endpoint))) [] startId
    have hlen := congrArg List.length hmap
    rw [List.length_map, List.length_append, List.length_map] at hlen
    rw [create_semantic_documents, hlen,
      length_filterMap_eq_countP_isSome (semanticShape records)]
    simp

/-- An endpoint with exactly two records, only one of which reaches the
20-character qualifying minimum. -/
def c6rec1 : NRecord :=
  { content := str ("Sykepleie er et omsorgsyrke i Norge")
    metadata := [], source_endpoint := str ("linje") }

def c6rec2 : NRecord :=
  { content := str ("x"), metadata := [], source_endpoint := str ("linje") }

set_option maxRecDepth 40000 in
/-- C6 (counterexample): on a two-record endpoint with a single qualifying
record, the code produces one semantic document, while the number of
endpoints with at least 2 qualifying records is zero — refuting the claim
that a document appears exactly for endpoints with ≥2 qualifying records. -/
theorem C6_counterexample :
    (create_semantic_documents [c6rec1, c6rec2] 0).length = 1 ∧
    (dedupKeepFirst ([c6rec1, c6rec2].map (fun r => r.source_endpoint))).countP
      (fun e => decide
        (2 ≤ ((groupFor [c6rec1, c6rec2] e).filter qualifiesRecord).length)) = 0 := by
  decide

end AiloBot
